import Mathlib

/-!
A shallow embedding of the `simple485_remastered_micro.py` link-layer engine:
the frame codec (`send_message`), the byte-at-a-time receiver state machine
(`_process_byte`), the packet-timeout check in `loop`, the transmit scheduler
(`_transmit`) and the small public API, together with proofs about them.

Machine bytes are modelled as `Nat` values below 256; byte strings as
`List Nat`.  Python's `~x & m` on a nonnegative `x` is rendered with the
equivalent `Nat` expression `(x &&& m) ^^^ m`.  Behaviour that involves real
time (clock reads, sleeps) is made explicit by threading a clock value and,
for the transmit path, by recording the performed pin/sleep/write actions in
a trace.  A raising serial `write`/completion-wait is modelled by two failure
flags in the transmit environment.
-/

namespace Simple485

/-! ## Protocol constants (module-level constants and `ControlSequence`) -/

def MAX_MESSAGE_LEN : Nat := 255
def LINE_READY_TIME_MS : Nat := 10
def BITS_PER_BYTE : Nat := 10
def PACKET_TIMEOUT_MS : Nat := 500
def FIRST_NODE_ADDRESS : Nat := 0
def MASTER_ADDRESS : Nat := FIRST_NODE_ADDRESS
def BROADCAST_ADDRESS : Nat := 255
def LAST_NODE_ADDRESS : Nat := BROADCAST_ADDRESS - 1

/-- Control byte `ControlSequence.SOH = b"\x01"`. -/
def SOH : Nat := 1
/-- Control byte `ControlSequence.STX = b"\x02"`. -/
def STX : Nat := 2
/-- Control byte `ControlSequence.ETX = b"\x03"`. -/
def ETX : Nat := 3
/-- Control byte `ControlSequence.EOT = b"\x04"`. -/
def EOT : Nat := 4
/-- Control byte `ControlSequence.LF = b"\x0a"`. -/
def LF : Nat := 10
/-- Control byte `ControlSequence.NULL = b"\x00"`. -/
def NULL : Nat := 0

def DEFAULT_TRANSCEIVER_TOGGLE_TIME_MS : Nat := 20

/-- Address validation `is_valid_node_address`. -/
def is_valid_node_address (address : Nat) : Bool :=
  decide (FIRST_NODE_ADDRESS ≤ address ∧ address ≤ LAST_NODE_ADDRESS)

/-- Address validation `is_valid_slave_address`. -/
def is_valid_slave_address (address : Nat) : Bool :=
  is_valid_node_address address && decide (address ≠ MASTER_ADDRESS)

/-! ## Receiver state machine data (`ReceiverState`, `ReceivingMessage`,
`ReceivedMessage`) -/

/-- The states of `ReceiverState` (integer constants in the source). -/
inductive ReceiverState where
  | IDLE
  | SOH_RECEIVED
  | DEST_ADDRESS_RECEIVED
  | SRC_ADDRESS_RECEIVED
  | TRANSACTION_ID_RECEIVED
  | MESSAGE_LEN_RECEIVED
  | STX_RECEIVED
  | ETX_RECEIVED
  | CRC_OK
  deriving DecidableEq, Repr

/-- The transient per-frame parse state `ReceivingMessage`.  The source
initializes the header fields to `None` and overwrites each of them before it
is ever read; they are modelled as `Nat` fields initialized to `0`. -/
structure ReceivingMessage where
  timestamp : Nat
  dst_address : Nat
  src_address : Nat
  transaction_id : Nat
  length : Nat
  crc : Nat
  is_first_nibble : Bool
  incoming : Nat
  payload_buffer : List Nat
  deriving DecidableEq, Repr

/-- A fresh `ReceivingMessage(timestamp=...)`. -/
def ReceivingMessage.init (timestamp : Nat) : ReceivingMessage :=
  { timestamp := timestamp
    dst_address := 0
    src_address := 0
    transaction_id := 0
    length := 0
    crc := 0
    is_first_nibble := true
    incoming := 0
    payload_buffer := [] }

/-- The immutable `ReceivedMessage` record.  The back-reference
`_originating_bus` carries no protocol data and is omitted. -/
structure ReceivedMessage where
  src_address : Nat
  dest_address : Nat
  transaction_id : Nat
  length : Nat
  payload : List Nat
  deriving DecidableEq, Repr

/-! ## Engine state (`Simple485Remastered` instance fields) -/

/-- The mutable fields of a `Simple485Remastered` instance. -/
structure BusState where
  address : Nat
  transceiver_toggle_time_ms : Nat
  last_bus_activity : Nat
  receiver_state : ReceiverState
  receiving_message : Option ReceivingMessage
  received_messages : List ReceivedMessage
  output_messages : List (List Nat)
  deriving DecidableEq, Repr

/-- The state produced by `__init__` (for a valid address and positive toggle
time), at clock value `t`. -/
def initState (address toggle t : Nat) : BusState :=
  { address := address
    transceiver_toggle_time_ms := toggle
    last_bus_activity := t
    receiver_state := .IDLE
    receiving_message := none
    received_messages := []
    output_messages := [] }

/-! ## Frame codec (`send_message` encoding loop) -/

/-- High-nibble wire byte of one payload byte: the source's
`byte = p & 240; byte | (~(byte >> 4) & 15)`. -/
def encHi (p : Nat) : Nat :=
  (p &&& 240) ||| ((((p &&& 240) >>> 4) &&& 15) ^^^ 15)

/-- Low-nibble wire byte of one payload byte: the source's
`byte = p & 15; byte | ((~byte << 4) & 240)`. -/
def encLo (p : Nat) : Nat :=
  (p &&& 15) ||| ((((p &&& 15) ^^^ 15) <<< 4) &&& 240)

/-- The encoded frame body: two wire bytes per payload byte. -/
def encodeBody (payload : List Nat) : List Nat :=
  payload.flatMap fun p => [encHi p, encLo p]

/-- The running XOR accumulator over a byte list, from initial value `c`. -/
def xorFold (c : Nat) (l : List Nat) : Nat :=
  l.foldl (fun a b => a ^^^ b) c

/-- The checksum written into a frame:
`crc = self._address ^ dst_address ^ message_len` folded with each payload
byte. -/
def frameCrc (src_address dst_address : Nat) (payload : List Nat) : Nat :=
  xorFold (src_address ^^^ dst_address ^^^ payload.length) payload

/-- The complete wire frame built by `send_message` on a node whose address is
`src_address`. -/
def encodeFrame (src_address dst_address transaction_id : Nat)
    (payload : List Nat) : List Nat :=
  [LF, LF, LF, SOH, dst_address, src_address, transaction_id,
    payload.length, STX]
    ++ encodeBody payload
    ++ [ETX, frameCrc src_address dst_address payload, EOT, LF, LF]

/-- Public API `send_message`.  The two `ValueError`s become `Except.error`;
on success the encoded frame is appended to the outbound FIFO and the
source's `return True` is the second component. -/
def send_message (s : BusState) (dst_address : Nat) (payload : List Nat)
    (transaction_id : Nat) : Except String (BusState × Bool) :=
  if payload.length = 0 then
    .error "Cannot send an empty message."
  else if payload.length > MAX_MESSAGE_LEN then
    .error "Message length exceeds maximum."
  else
    .ok
      ({ s with
          output_messages := s.output_messages
            ++ [encodeFrame s.address dst_address transaction_id payload] },
        true)

/-! ## Receiver state machine (`_process_byte`) -/

/-- The source's validity test for one encoded wire byte:
`(~(((b << 4) & 240) | ((b >> 4) & 15))) & 0xFF == b`. -/
def is_valid_encoded_byte (b : Nat) : Bool :=
  ((((b <<< 4) &&& 240) ||| ((b >>> 4) &&& 15)) ^^^ 255) = b

/-- One step of the receiver state machine, `_process_byte`, at clock value
`now`.  In every non-`IDLE` branch the source dereferences
`self._receiving_message`; the (unreachable, see the reachability invariant
below) `none` case is modelled as a no-op. -/
def process_byte (now : Nat) (s : BusState) (byte : Nat) : BusState :=
  match s.receiver_state with
  | .IDLE =>
      if byte = SOH then
        { s with
            receiver_state := .SOH_RECEIVED
            receiving_message := some (ReceivingMessage.init now) }
      else s
  | .SOH_RECEIVED =>
      match s.receiving_message with
      | none => s
      | some r =>
          if byte ≠ s.address ∧ byte ≠ BROADCAST_ADDRESS then
            { s with receiver_state := .IDLE, receiving_message := none }
          else
            { s with
                receiver_state := .DEST_ADDRESS_RECEIVED
                receiving_message := some { r with dst_address := byte } }
  | .DEST_ADDRESS_RECEIVED =>
      match s.receiving_message with
      | none => s
      | some r =>
          { s with
              receiver_state := .SRC_ADDRESS_RECEIVED
              receiving_message := some { r with src_address := byte } }
  | .SRC_ADDRESS_RECEIVED =>
      match s.receiving_message with
      | none => s
      | some r =>
          { s with
              receiver_state := .TRANSACTION_ID_RECEIVED
              receiving_message := some { r with transaction_id := byte } }
  | .TRANSACTION_ID_RECEIVED =>
      match s.receiving_message with
      | none => s
      | some r =>
          if ¬ (0 < byte ∧ byte ≤ MAX_MESSAGE_LEN) then
            { s with receiver_state := .IDLE, receiving_message := none }
          else
            { s with
                receiver_state := .MESSAGE_LEN_RECEIVED
                receiving_message := some { r with length := byte } }
  | .MESSAGE_LEN_RECEIVED =>
      match s.receiving_message with
      | none => s
      | some r =>
          if byte = STX then
            { s with
                receiver_state := .STX_RECEIVED
                receiving_message := some
                  { r with
                      crc := r.dst_address ^^^ r.src_address ^^^ r.length } }
          else
            { s with receiver_state := .IDLE, receiving_message := none }
  | .STX_RECEIVED =>
      match s.receiving_message with
      | none => s
      | some r =>
          if is_valid_encoded_byte byte then
            if r.is_first_nibble then
              { s with
                  receiving_message := some
                    { r with
                        incoming := byte &&& 240
                        is_first_nibble := false } }
            else
              { s with
                  receiving_message := some
                    { r with
                        is_first_nibble := true
                        incoming := r.incoming ||| (byte &&& 15)
                        payload_buffer := r.payload_buffer
                          ++ [r.incoming ||| (byte &&& 15)]
                        crc := r.crc ^^^ (r.incoming ||| (byte &&& 15)) } }
          else if byte = ETX then
            if r.payload_buffer.length = r.length then
              { s with receiver_state := .ETX_RECEIVED }
            else
              { s with receiver_state := .IDLE, receiving_message := none }
          else
            { s with receiver_state := .IDLE, receiving_message := none }
  | .ETX_RECEIVED =>
      match s.receiving_message with
      | none => s
      | some r =>
          if byte = r.crc then
            { s with receiver_state := .CRC_OK }
          else
            { s with receiver_state := .IDLE, receiving_message := none }
  | .CRC_OK =>
      match s.receiving_message with
      | none => s
      | some r =>
          if byte = EOT then
            { s with
                receiver_state := .IDLE
                receiving_message := none
                received_messages := s.received_messages
                  ++ [{ src_address := r.src_address
                        dest_address := r.dst_address
                        transaction_id := r.transaction_id
                        length := r.length
                        payload := r.payload_buffer }] }
          else
            { s with receiver_state := .IDLE, receiving_message := none }

/-- Feeding a byte list through `_process_byte`, one call per byte, all at
clock value `now`. -/
def processBytes (now : Nat) (s : BusState) (l : List Nat) : BusState :=
  l.foldl (process_byte now) s

/-- One inbound byte as handled inside `_receive`: a `NULL` byte while `IDLE`
is skipped; any other byte refreshes `_last_bus_activity` and is passed to
`_process_byte`. -/
def receive_byte (now : Nat) (s : BusState) (byte : Nat) : BusState :=
  if byte = NULL ∧ s.receiver_state = .IDLE then s
  else process_byte now { s with last_bus_activity := now } byte

/-! ## Packet timeout (tail of `loop`) and remaining public API -/

/-- The timestamp dereference `self._receiving_message.timestamp` in `loop`.
On `none` the source would raise `AttributeError`; the reachability invariant
below shows the guarded access never sees `none`. -/
def receivingTimestamp (s : BusState) : Nat :=
  match s.receiving_message with
  | some r => r.timestamp
  | none => 0

/-- The packet-timeout check at the end of `loop`, at clock value `now`. -/
def check_packet_timeout (now : Nat) (s : BusState) : BusState :=
  if s.receiver_state ≠ ReceiverState.IDLE
      ∧ (now : Int) - (receivingTimestamp s : Int) > PACKET_TIMEOUT_MS then
    { s with receiver_state := .IDLE, receiving_message := none }
  else s

/-- Public API `pending_send`: the source returns
`len(self._output_messages) > 0`. -/
def pending_send (s : BusState) : Bool :=
  decide (s.output_messages.length > 0)

/-- Public API `available`. -/
def available (s : BusState) : Nat :=
  s.received_messages.length

/-- Public API `read`: raises on an empty inbound queue, otherwise pops the
oldest message. -/
def read_message (s : BusState) :
    Except String (ReceivedMessage × BusState) :=
  match s.received_messages with
  | [] => .error "No messages available to read."
  | m :: rest => .ok (m, { s with received_messages := rest })

/-- Public API `set_address`, successful case (valid node address). -/
def set_address (s : BusState) (address : Nat) : BusState :=
  { s with address := address }

/-! ## Transmit scheduler (`_transmit`) -/

/-- Observable actions of one `_transmit` call.  `sleepUs d` is a sleep of
`d` microseconds: `utime.sleep_ms(t)` appears as `sleepUs (t * 1000)` and
`utime.sleep_us(t)` as `sleepUs t`.  `waitTxDone` stands for the completed
transmission wait (the `txdone` poll or the capability-dependent
flush/estimated-delay fallback, which the failure flag below covers as a
whole). -/
inductive TxAction where
  | pinOn
  | pinOff
  | sleepUs (us : Nat)
  | writeFrame (frame : List Nat)
  | waitTxDone
  deriving DecidableEq, Repr

/-- Environment of one `_transmit` call: the clock value at the line-idle
gate, whether `write` raises, whether the completion wait raises, and the
clock value read after a successful send. -/
structure TxEnv where
  now : Nat
  writeOk : Bool
  waitOk : Bool
  doneTime : Nat
  deriving DecidableEq, Repr

/-- Trace of `_enable_transmit_mode`: pin on, then
`utime.sleep_ms(self._transceiver_toggle_time_ms)`. -/
def enableActions (s : BusState) : List TxAction :=
  [.pinOn, .sleepUs (s.transceiver_toggle_time_ms * 1000)]

/-- Trace of `_disable_transmit_mode`: pin off, then
`utime.sleep_us(self._transceiver_toggle_time_ms)` — note the source sleeps
the toggle time in microseconds here, unlike the enable path. -/
def disableActions (s : BusState) : List TxAction :=
  [.pinOff, .sleepUs s.transceiver_toggle_time_ms]

/-- One `_transmit` call: resulting state, returned Boolean, and the trace of
performed actions.  A raising `write` delivers nothing to the channel; a
raising completion wait leaves the already written frame on the channel.  In
both failure cases the `finally` block still runs `_disable_transmit_mode`
and the state is left unchanged. -/
def transmit (s : BusState) (env : TxEnv) :
    BusState × Bool × List TxAction :=
  match s.output_messages with
  | [] => (s, false, [])
  | frame :: rest =>
      if (env.now : Int) - (s.last_bus_activity : Int)
          < LINE_READY_TIME_MS then
        (s, false, [])
      else if env.writeOk = false then
        (s, false, enableActions s ++ disableActions s)
      else if env.waitOk = false then
        (s, false, enableActions s ++ [.writeFrame frame] ++ disableActions s)
      else
        ({ s with
            last_bus_activity := env.doneTime
            output_messages := rest },
          true,
          enableActions s ++ [.writeFrame frame, .waitTxDone]
            ++ disableActions s)

/-- The frames successfully written to the channel within a trace. -/
def txWrites (actions : List TxAction) : List (List Nat) :=
  actions.filterMap fun a =>
    match a with
    | .writeFrame frame => some frame
    | _ => none

/-- A run of `_transmit` calls, one per service tick, collecting the frames
written to the channel in order. -/
def runTx (s : BusState) : List TxEnv → BusState × List (List Nat)
  | [] => (s, [])
  | env :: envs =>
      let step := transmit s env
      let rest := runTx step.1 envs
      (rest.1, txWrites step.2.2 ++ rest.2)

/-! ## Reachable engine states -/

/-- The engine states reachable from construction through the public API and
the service tick: construction, one received byte (`_receive` body), the
packet-timeout check, one `_transmit` call, `send_message` (when it
succeeds), `read`, and `set_address` (with a valid address).  A full `loop`
tick is a composition of these steps. -/
inductive Reachable : BusState → Prop where
  | init (address toggle t : Nat)
      (haddr : is_valid_node_address address = true) (htoggle : 0 < toggle) :
      Reachable (initState address toggle t)
  | recv {s : BusState} (now byte : Nat) :
      Reachable s → Reachable (receive_byte now s byte)
  | timeout {s : BusState} (now : Nat) :
      Reachable s → Reachable (check_packet_timeout now s)
  | transmitStep {s : BusState} (env : TxEnv) :
      Reachable s → Reachable (transmit s env).1
  | send {s s' : BusState} {b : Bool}
      (dst_address : Nat) (payload : List Nat) (transaction_id : Nat)
      (h : send_message s dst_address payload transaction_id = .ok (s', b)) :
      Reachable s → Reachable s'
  | readStep {s s' : BusState} {m : ReceivedMessage}
      (h : read_message s = .ok (m, s')) :
      Reachable s → Reachable s'
  | setAddr {s : BusState} (address : Nat)
      (haddr : is_valid_node_address address = true) :
      Reachable s → Reachable (set_address s address)

/-! ## Single-step equations of `_process_byte` -/

theorem processBytes_nil (now : Nat) (s : BusState) :
    processBytes now s [] = s := rfl

theorem processBytes_cons (now : Nat) (s : BusState) (b : Nat) (l : List Nat) :
    processBytes now s (b :: l) = processBytes now (process_byte now s b) l :=
  rfl

theorem processBytes_append (now : Nat) (s : BusState) (l₁ l₂ : List Nat) :
    processBytes now s (l₁ ++ l₂)
      = processBytes now (processBytes now s l₁) l₂ := by
  simp only [processBytes, List.foldl_append]

theorem pb_idle_other {s : BusState} {now byte : Nat}
    (h : s.receiver_state = .IDLE) (hb : byte ≠ SOH) :
    process_byte now s byte = s := by
  simp [process_byte, h, hb]

theorem pb_idle_soh {s : BusState} {now : Nat}
    (h : s.receiver_state = .IDLE) :
    process_byte now s SOH
      = { s with
          receiver_state := .SOH_RECEIVED
          receiving_message := some (ReceivingMessage.init now) } := by
  simp [process_byte, h]

theorem pb_soh_accept {s : BusState} {r : ReceivingMessage} {now byte : Nat}
    (h : s.receiver_state = .SOH_RECEIVED) (hr : s.receiving_message = some r)
    (hd : byte = s.address ∨ byte = BROADCAST_ADDRESS) :
    process_byte now s byte
      = { s with
          receiver_state := .DEST_ADDRESS_RECEIVED
          receiving_message := some { r with dst_address := byte } } := by
  rcases hd with hd | hd <;> simp [process_byte, h, hr, hd]

theorem pb_soh_reject {s : BusState} {r : ReceivingMessage} {now byte : Nat}
    (h : s.receiver_state = .SOH_RECEIVED) (hr : s.receiving_message = some r)
    (hd1 : byte ≠ s.address) (hd2 : byte ≠ BROADCAST_ADDRESS) :
    process_byte now s byte
      = { s with receiver_state := .IDLE, receiving_message := none } := by
  simp [process_byte, h, hr, hd1, hd2]

theorem pb_dest {s : BusState} {r : ReceivingMessage} {now byte : Nat}
    (h : s.receiver_state = .DEST_ADDRESS_RECEIVED)
    (hr : s.receiving_message = some r) :
    process_byte now s byte
      = { s with
          receiver_state := .SRC_ADDRESS_RECEIVED
          receiving_message := some { r with src_address := byte } } := by
  simp [process_byte, h, hr]

theorem pb_src {s : BusState} {r : ReceivingMessage} {now byte : Nat}
    (h : s.receiver_state = .SRC_ADDRESS_RECEIVED)
    (hr : s.receiving_message = some r) :
    process_byte now s byte
      = { s with
          receiver_state := .TRANSACTION_ID_RECEIVED
          receiving_message := some { r with transaction_id := byte } } := by
  simp [process_byte, h, hr]

theorem pb_tid_ok {s : BusState} {r : ReceivingMessage} {now byte : Nat}
    (h : s.receiver_state = .TRANSACTION_ID_RECEIVED)
    (hr : s.receiving_message = some r)
    (h1 : 0 < byte) (h2 : byte ≤ MAX_MESSAGE_LEN) :
    process_byte now s byte
      = { s with
          receiver_state := .MESSAGE_LEN_RECEIVED
          receiving_message := some { r with length := byte } } := by
  simp [process_byte, h, hr, h1, h2]

theorem pb_tid_bad {s : BusState} {r : ReceivingMessage} {now byte : Nat}
    (h : s.receiver_state = .TRANSACTION_ID_RECEIVED)
    (hr : s.receiving_message = some r)
    (hbad : ¬ (0 < byte ∧ byte ≤ MAX_MESSAGE_LEN)) :
    process_byte now s byte
      = { s with receiver_state := .IDLE, receiving_message := none } := by
  simp only [process_byte, h, hr]
  rw [if_pos hbad]

theorem pb_len_stx {s : BusState} {r : ReceivingMessage} {now : Nat}
    (h : s.receiver_state = .MESSAGE_LEN_RECEIVED)
    (hr : s.receiving_message = some r) :
    process_byte now s STX
      = { s with
          receiver_state := .STX_RECEIVED
          receiving_message := some
            { r with crc := r.dst_address ^^^ r.src_address ^^^ r.length } } := by
  simp [process_byte, h, hr]

theorem pb_len_other {s : BusState} {r : ReceivingMessage} {now byte : Nat}
    (h : s.receiver_state = .MESSAGE_LEN_RECEIVED)
    (hr : s.receiving_message = some r) (hb : byte ≠ STX) :
    process_byte now s byte
      = { s with receiver_state := .IDLE, receiving_message := none } := by
  simp [process_byte, h, hr, hb]

theorem pb_stx_valid_first {s : BusState} {r : ReceivingMessage}
    {now byte : Nat}
    (h : s.receiver_state = .STX_RECEIVED) (hr : s.receiving_message = some r)
    (hv : is_valid_encoded_byte byte = true) (hf : r.is_first_nibble = true) :
    process_byte now s byte
      = { s with
          receiving_message := some
            { r with incoming := byte &&& 240, is_first_nibble := false } } := by
  simp [process_byte, h, hr, hv, hf]

theorem pb_stx_valid_second {s : BusState} {r : ReceivingMessage}
    {now byte : Nat}
    (h : s.receiver_state = .STX_RECEIVED) (hr : s.receiving_message = some r)
    (hv : is_valid_encoded_byte byte = true) (hf : r.is_first_nibble = false) :
    process_byte now s byte
      = { s with
          receiving_message := some
            { r with
                is_first_nibble := true
                incoming := r.incoming ||| (byte &&& 15)
                payload_buffer := r.payload_buffer
                  ++ [r.incoming ||| (byte &&& 15)]
                crc := r.crc ^^^ (r.incoming ||| (byte &&& 15)) } } := by
  simp [process_byte, h, hr, hv, hf]

theorem pb_stx_etx_ok {s : BusState} {r : ReceivingMessage} {now : Nat}
    (h : s.receiver_state = .STX_RECEIVED) (hr : s.receiving_message = some r)
    (hlen : r.payload_buffer.length = r.length) :
    process_byte now s ETX = { s with receiver_state := .ETX_RECEIVED } := by
  have hv : is_valid_encoded_byte ETX = false := by decide
  simp [process_byte, h, hr, hlen, hv]

theorem pb_stx_etx_bad {s : BusState} {r : ReceivingMessage} {now : Nat}
    (h : s.receiver_state = .STX_RECEIVED) (hr : s.receiving_message = some r)
    (hlen : r.payload_buffer.length ≠ r.length) :
    process_byte now s ETX
      = { s with receiver_state := .IDLE, receiving_message := none } := by
  have hv : is_valid_encoded_byte ETX = false := by decide
  simp [process_byte, h, hr, hlen, hv]

theorem pb_stx_junk {s : BusState} {r : ReceivingMessage} {now byte : Nat}
    (h : s.receiver_state = .STX_RECEIVED) (hr : s.receiving_message = some r)
    (hv : is_valid_encoded_byte byte = false) (hb : byte ≠ ETX) :
    process_byte now s byte
      = { s with receiver_state := .IDLE, receiving_message := none } := by
  simp [process_byte, h, hr, hv, hb]

theorem pb_etx_crc_ok {s : BusState} {r : ReceivingMessage} {now : Nat}
    (h : s.receiver_state = .ETX_RECEIVED)
    (hr : s.receiving_message = some r) :
    process_byte now s r.crc = { s with receiver_state := .CRC_OK } := by
  simp [process_byte, h, hr]

theorem pb_etx_crc_bad {s : BusState} {r : ReceivingMessage} {now byte : Nat}
    (h : s.receiver_state = .ETX_RECEIVED) (hr : s.receiving_message = some r)
    (hb : byte ≠ r.crc) :
    process_byte now s byte
      = { s with receiver_state := .IDLE, receiving_message := none } := by
  simp [process_byte, h, hr, hb]

theorem pb_crcok_eot {s : BusState} {r : ReceivingMessage} {now : Nat}
    (h : s.receiver_state = .CRC_OK) (hr : s.receiving_message = some r) :
    process_byte now s EOT
      = { s with
          receiver_state := .IDLE
          receiving_message := none
          received_messages := s.received_messages
            ++ [{ src_address := r.src_address
                  dest_address := r.dst_address
                  transaction_id := r.transaction_id
                  length := r.length
                  payload := r.payload_buffer }] } := by
  simp [process_byte, h, hr]

theorem pb_crcok_other {s : BusState} {r : ReceivingMessage} {now byte : Nat}
    (h : s.receiver_state = .CRC_OK) (hr : s.receiving_message = some r)
    (hb : byte ≠ EOT) :
    process_byte now s byte
      = { s with receiver_state := .IDLE, receiving_message := none } := by
  simp [process_byte, h, hr, hb]

/-! ## Byte-level facts about the nibble-complement code -/

set_option maxRecDepth 10000 in
theorem encByteFacts : ∀ p, p < 256 →
    is_valid_encoded_byte (encHi p) = true ∧
    is_valid_encoded_byte (encLo p) = true ∧
    encHi p &&& 240 = p &&& 240 ∧
    ((p &&& 240) ||| (encLo p &&& 15)) = p ∧
    15 ≤ encHi p ∧ encHi p ≤ 240 ∧ 15 ≤ encLo p ∧ encLo p ≤ 240 := by
  decide

set_option maxRecDepth 10000 in
theorem validEnc_bound : ∀ b, b < 256 →
    is_valid_encoded_byte b = true → 15 ≤ b ∧ b ≤ 240 := by
  decide

theorem encHi_ne_soh {p : Nat} (hp : p < 256) : encHi p ≠ SOH := by
  have h := (encByteFacts p hp).2.2.2.2.1
  simp only [SOH]
  omega

theorem encLo_ne_soh {p : Nat} (hp : p < 256) : encLo p ≠ SOH := by
  have h := (encByteFacts p hp).2.2.2.2.2.2.1
  simp only [SOH]
  omega

/-! ## XOR accumulator facts -/

theorem xorFold_cons (c b : Nat) (l : List Nat) :
    xorFold c (b :: l) = xorFold (c ^^^ b) l := rfl

theorem xorFold_eq_xor (c : Nat) (l : List Nat) :
    xorFold c l = c ^^^ xorFold 0 l := by
  induction l generalizing c with
  | nil => simp [xorFold]
  | cons b t ih =>
      rw [xorFold_cons, xorFold_cons, ih, ih (0 ^^^ b)]
      simp [Nat.xor_assoc]

theorem xorFold_init_cancel {c c' : Nat} (l : List Nat) (h : c ≠ c') :
    xorFold c l ≠ xorFold c' l := by
  intro heq
  rw [xorFold_eq_xor, xorFold_eq_xor c'] at heq
  apply h
  have := congrArg (fun x => x ^^^ xorFold 0 l) heq
  simpa [Nat.xor_assoc] using this

/-! ## Record plumbing -/

theorem with_receiving_eq {s : BusState} {r : ReceivingMessage}
    (h : s.receiving_message = some r) :
    ({ s with receiving_message := some r } : BusState) = s := by
  cases s
  simp only at h
  subst h
  rfl

/-! ## Composite runs of the receiver -/

/-- Bytes other than `SOH` are inert while the receiver is `IDLE`. -/
theorem processIdleSkip (now : Nat) (l : List Nat) :
    ∀ s : BusState, s.receiver_state = .IDLE → (∀ b ∈ l, b ≠ SOH) →
      processBytes now s l = s := by
  induction l with
  | nil => intro s _ _; rfl
  | cons b t ih =>
      intro s hs hb
      rw [processBytes_cons, pb_idle_other hs (hb b (by simp))]
      exact ih s hs fun x hx => hb x (by simp [hx])

/-- Processing the frame header
`LF LF LF SOH dst src tid len STX` from `IDLE`, for an accepted destination
and a valid length, lands in `STX_RECEIVED` with the checksum initialized. -/
theorem processHeader (now : Nat) (s : BusState) (d src tid n : Nat)
    (hstate : s.receiver_state = .IDLE)
    (hd : d = s.address ∨ d = BROADCAST_ADDRESS)
    (hn1 : 0 < n) (hn2 : n ≤ MAX_MESSAGE_LEN) :
    processBytes now s [LF, LF, LF, SOH, d, src, tid, n, STX]
      = { s with
          receiver_state := .STX_RECEIVED
          receiving_message := some
            { timestamp := now, dst_address := d, src_address := src,
              transaction_id := tid, length := n, crc := d ^^^ src ^^^ n,
              is_first_nibble := true, incoming := 0, payload_buffer := [] } } := by
  have h3 : processBytes now s [LF, LF, LF] = s :=
    processIdleSkip now _ s hstate (by decide)
  have hsplit :
      ([LF, LF, LF, SOH, d, src, tid, n, STX] : List Nat)
        = [LF, LF, LF] ++ [SOH, d, src, tid, n, STX] := rfl
  have e1 : process_byte now s SOH
      = { s with
          receiver_state := .SOH_RECEIVED
          receiving_message := some (ReceivingMessage.init now) } :=
    pb_idle_soh hstate
  have e2 : process_byte now
      { s with
        receiver_state := .SOH_RECEIVED
        receiving_message := some (ReceivingMessage.init now) } d
      = { s with
          receiver_state := .DEST_ADDRESS_RECEIVED
          receiving_message := some
            { timestamp := now, dst_address := d, src_address := 0,
              transaction_id := 0, length := 0, crc := 0,
              is_first_nibble := true, incoming := 0, payload_buffer := [] } } :=
    pb_soh_accept (by simp) rfl (by simpa using hd)
  have e3 : process_byte now
      { s with
        receiver_state := .DEST_ADDRESS_RECEIVED
        receiving_message := some
          { timestamp := now, dst_address := d, src_address := 0,
            transaction_id := 0, length := 0, crc := 0,
            is_first_nibble := true, incoming := 0, payload_buffer := [] } } src
      = { s with
          receiver_state := .SRC_ADDRESS_RECEIVED
          receiving_message := some
            { timestamp := now, dst_address := d, src_address := src,
              transaction_id := 0, length := 0, crc := 0,
              is_first_nibble := true, incoming := 0, payload_buffer := [] } } :=
    pb_dest (by simp) rfl
  have e4 : process_byte now
      { s with
        receiver_state := .SRC_ADDRESS_RECEIVED
        receiving_message := some
          { timestamp := now, dst_address := d, src_address := src,
            transaction_id := 0, length := 0, crc := 0,
            is_first_nibble := true, incoming := 0, payload_buffer := [] } } tid
      = { s with
          receiver_state := .TRANSACTION_ID_RECEIVED
          receiving_message := some
            { timestamp := now, dst_address := d, src_address := src,
              transaction_id := tid, length := 0, crc := 0,
              is_first_nibble := true, incoming := 0, payload_buffer := [] } } :=
    pb_src (by simp) rfl
  have e5 : process_byte now
      { s with
        receiver_state := .TRANSACTION_ID_RECEIVED
        receiving_message := some
          { timestamp := now, dst_address := d, src_address := src,
            transaction_id := tid, length := 0, crc := 0,
            is_first_nibble := true, incoming := 0, payload_buffer := [] } } n
      = { s with
          receiver_state := .MESSAGE_LEN_RECEIVED
          receiving_message := some
            { timestamp := now, dst_address := d, src_address := src,
              transaction_id := tid, length := n, crc := 0,
              is_first_nibble := true, incoming := 0, payload_buffer := [] } } :=
    pb_tid_ok (by simp) rfl hn1 hn2
  have e6 : process_byte now
      { s with
        receiver_state := .MESSAGE_LEN_RECEIVED
        receiving_message := some
          { timestamp := now, dst_address := d, src_address := src,
            transaction_id := tid, length := n, crc := 0,
            is_first_nibble := true, incoming := 0, payload_buffer := [] } } STX
      = { s with
          receiver_state := .STX_RECEIVED
          receiving_message := some
            { timestamp := now, dst_address := d, src_address := src,
              transaction_id := tid, length := n, crc := d ^^^ src ^^^ n,
              is_first_nibble := true, incoming := 0, payload_buffer := [] } } :=
    pb_len_stx (by simp) rfl
  rw [hsplit, processBytes_append, h3, processBytes_cons, e1,
    processBytes_cons, e2, processBytes_cons, e3, processBytes_cons, e4,
    processBytes_cons, e5, processBytes_cons, e6, processBytes_nil]

/-- Processing the encoded body `enc(P)` from `STX_RECEIVED` with an empty
half-byte: the receiver stays in `STX_RECEIVED`, appends exactly the payload
`P` to the buffer and folds it into the checksum. -/
theorem processBody (now : Nat) (P : List Nat) :
    ∀ (s : BusState) (r : ReceivingMessage),
      (∀ b ∈ P, b < 256) →
      s.receiver_state = .STX_RECEIVED →
      s.receiving_message = some r →
      r.is_first_nibble = true →
      ∃ r' : ReceivingMessage,
        processBytes now s (encodeBody P)
          = { s with receiving_message := some r' } ∧
        r'.timestamp = r.timestamp ∧
        r'.dst_address = r.dst_address ∧
        r'.src_address = r.src_address ∧
        r'.transaction_id = r.transaction_id ∧
        r'.length = r.length ∧
        r'.crc = xorFold r.crc P ∧
        r'.is_first_nibble = true ∧
        r'.payload_buffer = r.payload_buffer ++ P := by
  induction P with
  | nil =>
      intro s r _ _ hr hf
      exact ⟨r, by simp [encodeBody, processBytes, with_receiving_eq hr],
        rfl, rfl, rfl, rfl, rfl, rfl, hf, by simp [xorFold]⟩
  | cons p P ih =>
      intro s r hb hs hr hf
      have hp : p < 256 := hb p (by simp)
      obtain ⟨hv1, hv2, h240, hjoin, -⟩ := encByteFacts p hp
      have hcons : encodeBody (p :: P) = encHi p :: encLo p :: encodeBody P := by
        simp [encodeBody]
      have e1 : process_byte now s (encHi p)
          = { s with
              receiving_message := some
                { r with incoming := encHi p &&& 240, is_first_nibble := false } } :=
        pb_stx_valid_first hs hr hv1 hf
      have e2 : process_byte now
          { s with
            receiving_message := some
              { r with incoming := encHi p &&& 240, is_first_nibble := false } }
          (encLo p)
          = { s with
              receiving_message := some
                { r with
                    is_first_nibble := true
                    incoming := p
                    payload_buffer := r.payload_buffer ++ [p]
                    crc := r.crc ^^^ p } } := by
        have h : process_byte now
            { s with
              receiving_message := some
                { r with incoming := encHi p &&& 240,
                         is_first_nibble := false } }
            (encLo p)
            = { s with
                receiving_message := some
                  { r with
                      is_first_nibble := true
                      incoming := (encHi p &&& 240) ||| (encLo p &&& 15)
                      payload_buffer := r.payload_buffer
                        ++ [(encHi p &&& 240) ||| (encLo p &&& 15)]
                      crc := r.crc
                        ^^^ ((encHi p &&& 240) ||| (encLo p &&& 15)) } } :=
          pb_stx_valid_second (by simp [hs]) rfl hv2 rfl
        rw [h]
        simp only [h240, hjoin]
      obtain ⟨r', heq, ht, hdst, hsrc, htid, hlen, hcrc, hfn, hpay⟩ :=
        ih { s with
              receiving_message := some
                { r with
                    is_first_nibble := true
                    incoming := p
                    payload_buffer := r.payload_buffer ++ [p]
                    crc := r.crc ^^^ p } }
          { r with
              is_first_nibble := true
              incoming := p
              payload_buffer := r.payload_buffer ++ [p]
              crc := r.crc ^^^ p }
          (fun b hb' => hb b (by simp [hb'])) (by simp [hs]) rfl rfl
      refine ⟨r', ?_, ?_, ?_, ?_, ?_, ?_, ?_, hfn, ?_⟩
      · rw [hcons, processBytes_cons, e1, processBytes_cons, e2, heq]
      · simpa using ht
      · simpa using hdst
      · simpa using hsrc
      · simpa using htid
      · simpa using hlen
      · rw [xorFold_cons]; simpa using hcrc
      · rw [hpay]; simp

/-- Processing `ETX crc EOT LF LF` from `STX_RECEIVED` when the buffered
payload length matches the declared length and the offered checksum matches
the accumulator: the message is promoted and appended, and the receiver
returns to `IDLE`. -/
theorem processTailAccept (now : Nat) (s : BusState) (r : ReceivingMessage)
    (hs : s.receiver_state = .STX_RECEIVED)
    (hr : s.receiving_message = some r)
    (hlen : r.payload_buffer.length = r.length) :
    processBytes now s [ETX, r.crc, EOT, LF, LF]
      = { s with
          receiver_state := .IDLE
          receiving_message := none
          received_messages := s.received_messages
            ++ [{ src_address := r.src_address
                  dest_address := r.dst_address
                  transaction_id := r.transaction_id
                  length := r.length
                  payload := r.payload_buffer }] } := by
  rw [processBytes_cons, pb_stx_etx_ok hs hr hlen]
  rw [processBytes_cons, pb_etx_crc_ok (r := r) (by simp) (by simp [hr])]
  rw [processBytes_cons, pb_crcok_eot (r := r) (by simp) (by simp [hr])]
  exact processIdleSkip now [LF, LF] _ (by simp) (by decide)

/-! ## Claim C1: encode/decode round trip -/

/-- C1: for every payload of length 1 to 255 over arbitrary byte values
(control-marker values included), feeding the frame built by `send_message`
(here `encodeFrame`, with the receiver's own address as destination)
byte-by-byte into the receiver state machine from `IDLE` appends exactly one
`ReceivedMessage` whose source, destination, transaction id, declared length
and payload equal the encoder's inputs, and returns the receiver to `IDLE`. -/
theorem roundtrip_encode_decode (now : Nat) (s : BusState)
    (src tid : Nat) (P : List Nat)
    (hstate : s.receiver_state = .IDLE)
    (hlen1 : 1 ≤ P.length) (hlen2 : P.length ≤ 255)
    (hP : ∀ b ∈ P, b < 256)
    (hsrc : src < 256) (htid : tid < 256)
    (haddr : is_valid_node_address s.address = true) :
    processBytes now s (encodeFrame src s.address tid P)
      = { s with
          receiver_state := .IDLE
          receiving_message := none
          received_messages := s.received_messages
            ++ [{ src_address := src, dest_address := s.address,
                  transaction_id := tid, length := P.length, payload := P }] } := by
  have hH := processHeader now s s.address src tid P.length hstate (Or.inl rfl)
    hlen1 hlen2
  obtain ⟨r', heq, ht, hdst, hsrc', htid', hlen', hcrc', hfn', hpay'⟩ :=
    processBody now P
      { s with
        receiver_state := .STX_RECEIVED
        receiving_message := some
          { timestamp := now, dst_address := s.address, src_address := src,
            transaction_id := tid, length := P.length,
            crc := s.address ^^^ src ^^^ P.length,
            is_first_nibble := true, incoming := 0, payload_buffer := [] } }
      { timestamp := now, dst_address := s.address, src_address := src,
        transaction_id := tid, length := P.length,
        crc := s.address ^^^ src ^^^ P.length,
        is_first_nibble := true, incoming := 0, payload_buffer := [] }
      hP (by simp) rfl rfl
  have hframe : encodeFrame src s.address tid P
      = ([LF, LF, LF, SOH, s.address, src, tid, P.length, STX]
          ++ encodeBody P)
        ++ [ETX, frameCrc src s.address P, EOT, LF, LF] := by
    simp [encodeFrame]
  have hcrceq : frameCrc src s.address P = r'.crc := by
    rw [hcrc']
    simp only [frameCrc]
    rw [Nat.xor_comm src s.address]
  have hlenr : r'.payload_buffer.length = r'.length := by
    rw [hpay', hlen']
    simp
  have htail := processTailAccept now
    { { s with
        receiver_state := .STX_RECEIVED
        receiving_message := some
          { timestamp := now, dst_address := s.address, src_address := src,
            transaction_id := tid, length := P.length,
            crc := s.address ^^^ src ^^^ P.length,
            is_first_nibble := true, incoming := 0, payload_buffer := [] } }
      with receiving_message := some r' }
    r' (by simp) rfl hlenr
  rw [hframe, processBytes_append, processBytes_append, hH, heq, hcrceq, htail]
  simp [ht, hdst, hsrc', htid', hlen', hpay']

/-- Witness for C1 at a concrete frame whose payload contains `0x00`, all
control-marker values and `0xFF`. -/
theorem roundtrip_encode_decode_witness :
    processBytes 0 (initState 2 20 0)
        (encodeFrame 0 2 5 [65, 0, 1, 2, 3, 4, 10, 255])
      = { initState 2 20 0 with
          receiver_state := .IDLE
          receiving_message := none
          received_messages :=
            [{ src_address := 0, dest_address := 2, transaction_id := 5,
               length := 8, payload := [65, 0, 1, 2, 3, 4, 10, 255] }] } :=
  roundtrip_encode_decode 0 (initState 2 20 0) 0 5 [65, 0, 1, 2, 3, 4, 10, 255]
    rfl (by decide) (by decide) (by decide) (by decide) (by decide) (by decide)

/-! ## Claim C10: a dangling unpaired first nibble is ignored by the length
check -/

/-- C10: a frame body holding an odd number of valid nibble-encoded bytes —
here `enc(65)` followed by the lone valid byte `15`, which is consumed as the
first nibble of a new pair — is accepted as a complete message: at `ETX` the
receiver compares only the count of fully assembled bytes (one) with the
declared length (one) and ignores the pending half-assembled byte.  The
checksum `66 = 2 ^^^ 0 ^^^ 1 ^^^ 65` also ignores the dangling nibble, so the
frame is accepted and the receiver appends the message. -/
theorem dangling_nibble_accepted :
    (processBytes 0 (initState 2 20 0)
        ([SOH, 2, 0, 0, 1, STX] ++ (encodeBody [65] ++ [15]) ++ [ETX, 66, EOT])
      ).received_messages
      = [{ src_address := 0, dest_address := 2, transaction_id := 0,
           length := 1, payload := [65] }]
    ∧ is_valid_encoded_byte 15 = true
    ∧ (encodeBody [65] ++ [15]).length = 3 := by
  decide

/-! ## Claim C3: destination filtering -/

/-- C3: in `SOH_RECEIVED`, a destination byte equal to the node's current
address or to the broadcast address continues the reception into
`DEST_ADDRESS_RECEIVED`; any other destination discards the in-progress
reception, returns the receiver to `IDLE`, and leaves the inbound queue
unchanged. -/
theorem dest_filter_soh_received (now : Nat) (s : BusState)
    (r : ReceivingMessage) (byte : Nat)
    (hs : s.receiver_state = .SOH_RECEIVED)
    (hr : s.receiving_message = some r) :
    (byte = s.address ∨ byte = BROADCAST_ADDRESS →
      process_byte now s byte
        = { s with
            receiver_state := .DEST_ADDRESS_RECEIVED
            receiving_message := some { r with dst_address := byte } })
    ∧ (byte ≠ s.address → byte ≠ BROADCAST_ADDRESS →
      process_byte now s byte
        = { s with receiver_state := .IDLE, receiving_message := none }
      ∧ (process_byte now s byte).received_messages = s.received_messages) :=
  ⟨fun hd => pb_soh_accept hs hr hd,
   fun h1 h2 =>
     ⟨pb_soh_reject hs hr h1 h2, by rw [pb_soh_reject hs hr h1 h2]⟩⟩

/-- Witness for C3 at the broadcast destination. -/
theorem dest_filter_soh_received_witness :
    process_byte 0
      { initState 2 20 0 with
        receiver_state := ReceiverState.SOH_RECEIVED
        receiving_message := some (ReceivingMessage.init 0) } 255
      = { { initState 2 20 0 with
            receiver_state := ReceiverState.SOH_RECEIVED
            receiving_message := some (ReceivingMessage.init 0) } with
          receiver_state := ReceiverState.DEST_ADDRESS_RECEIVED
          receiving_message := some
            { ReceivingMessage.init 0 with dst_address := 255 } } :=
  (dest_filter_soh_received 0 _ _ 255 rfl rfl).1 (Or.inr rfl)

/-! ## Claim C4: enqueue validation -/

/-- C4: `send_message` fails for the empty payload and for payloads longer
than 255 bytes — modelled as `Except.error`, raised before any mutation, so
the caller's state (in particular the outbound FIFO) is unchanged — and for
every payload of length 1 to 255 appends exactly one encoded frame to the
outbound FIFO and returns `True`. -/
theorem send_message_validation (s : BusState) (dst tid : Nat)
    (payload : List Nat) :
    (payload.length = 0 ∨ payload.length > 255 →
      ∃ msg, send_message s dst payload tid = .error msg)
    ∧ (1 ≤ payload.length → payload.length ≤ 255 →
      send_message s dst payload tid
        = .ok ({ s with
            output_messages := s.output_messages
              ++ [encodeFrame s.address dst tid payload] }, true)) := by
  constructor
  · rintro (h | h)
    · exact ⟨"Cannot send an empty message.", by simp [send_message, h]⟩
    · refine ⟨"Message length exceeds maximum.", ?_⟩
      rw [send_message, if_neg (by omega),
        if_pos (by simpa [MAX_MESSAGE_LEN] using h)]
  · intro h1 h2
    rw [send_message, if_neg (by omega),
      if_neg (by simp only [MAX_MESSAGE_LEN, gt_iff_lt, not_lt]; omega)]

/-- Witness for C4: a singleton payload is accepted and enqueued. -/
theorem send_message_validation_witness :
    send_message (initState 2 20 0) 1 [65] 0
      = .ok ({ initState 2 20 0 with
          output_messages := (initState 2 20 0).output_messages
            ++ [encodeFrame (initState 2 20 0).address 1 0 [65]] }, true) :=
  (send_message_validation (initState 2 20 0) 1 0 [65]).2 (by decide) (by decide)

/-! ## Claim C6: `pending_send` is a Boolean, not a count -/

/-- C6 counterexample: with two frames queued, `pending_send` (the source
returns `len(self._output_messages) > 0`, a Boolean, whose Python integer
value is `Bool.toNat`) does not equal the size of the outbound FIFO. -/
theorem pending_send_not_count :
    (pending_send
        { initState 2 20 0 with output_messages := [[1], [2]] }).toNat
      ≠ ({ initState 2 20 0 with
            output_messages := [[1], [2]] } : BusState).output_messages.length := by
  decide

/-- C6 (amended): `pending_send` returns whether the outbound FIFO is
nonempty; it equals the queue size as a number only for sizes 0 and 1. -/
theorem pending_send_iff_nonempty (s : BusState) :
    pending_send s = true ↔ s.output_messages ≠ [] := by
  simp [pending_send, List.length_pos]

/-- Witness for the amended C6 at a one-frame queue. -/
theorem pending_send_iff_nonempty_witness :
    pending_send { initState 2 20 0 with output_messages := [[1]] } = true ↔
      ({ initState 2 20 0 with
          output_messages := [[1]] } : BusState).output_messages ≠ [] :=
  pending_send_iff_nonempty _

/-! ## Claim C5: transmit failure retains the frame, success pops it -/

/-- C5: in a transmit attempt that passes the line-idle gate, an I/O failure
in the write or in the completion wait leaves the engine state unchanged —
the frame stays at the head of the outbound FIFO — and `False` is reported
for that tick only; when both steps complete, the last-bus-activity timestamp
is set to the clock value read after the send, the frame is removed from the
head of the queue, and `True` is reported. -/
theorem transmit_failure_retains_frame (s : BusState) (env : TxEnv)
    (frame : List Nat) (rest : List (List Nat))
    (hq : s.output_messages = frame :: rest)
    (hgate : (LINE_READY_TIME_MS : Int)
      ≤ (env.now : Int) - (s.last_bus_activity : Int)) :
    ((env.writeOk = false ∨ env.waitOk = false) →
      (transmit s env).1 = s ∧ (transmit s env).2.1 = false)
    ∧ (env.writeOk = true → env.waitOk = true →
      (transmit s env).1
        = { s with
            last_bus_activity := env.doneTime
            output_messages := rest }
      ∧ (transmit s env).2.1 = true) := by
  have hg : ¬ ((env.now : Int) - (s.last_bus_activity : Int)
      < (LINE_READY_TIME_MS : Nat)) := not_lt.mpr hgate
  constructor
  · rintro (hw | hw)
    · simp [transmit, hq, hg, hw]
    · cases hwo : env.writeOk
      · simp [transmit, hq, hg, hwo]
      · simp [transmit, hq, hg, hwo, hw]
  · intro hw hwait
    simp [transmit, hq, hg, hw, hwait]

/-- Witness for C5: a failing write retains the frame; the same engine state
with a successful environment pops it. -/
theorem transmit_failure_retains_frame_witness :
    ((transmit { initState 2 20 0 with output_messages := [[9]] }
        { now := 10, writeOk := false, waitOk := true, doneTime := 11 }).1
      = { initState 2 20 0 with output_messages := [[9]] }
    ∧ (transmit { initState 2 20 0 with output_messages := [[9]] }
        { now := 10, writeOk := false, waitOk := true, doneTime := 11 }).2.1
      = false) :=
  (transmit_failure_retains_frame _ _ [9] [] rfl (by decide)).1 (Or.inl rfl)

/-! ## Claim C7: the deassertion step of `_transmit` -/

/-- C7 (divergence witness): in a gated transmit attempt whose write fails,
the action trace still ends with the deassertion of the direction-control
signal — the `finally` block runs `_disable_transmit_mode` — but the sleep
that follows the deassertion is `sleepUs 20`, twenty microseconds, because
the source calls `utime.sleep_us` on the millisecond-valued toggle time,
whereas the configured settle time waited after assertion is
`sleepUs 20000`, twenty milliseconds.  The configured settle time is
therefore not "waited again" as the claim states. -/
theorem transmit_deassert_short_sleep :
    (transmit { initState 2 20 0 with output_messages := [[1, 2, 3]] }
        { now := 10, writeOk := false, waitOk := true, doneTime := 11 }).2.2
      = [.pinOn, .sleepUs 20000, .pinOff, .sleepUs 20]
    ∧ (20000 : Nat) ≠ 20 := by
  decide

/-! ## Claim C8: FIFO ordering of the transmit scheduler -/

theorem runTx_writes_nil_queue (envs : List TxEnv) :
    ∀ s : BusState, s.output_messages = [] → (runTx s envs).2 = [] := by
  induction envs with
  | nil => intro s _; rfl
  | cons e es ih =>
      intro s h
      simp [runTx, transmit, h, txWrites, ih s h]

theorem runTx_writes_single (B : List Nat) (envs : List TxEnv) :
    ∀ s : BusState, s.output_messages = [B] →
      ∃ j, (runTx s envs).2 = List.replicate j B := by
  induction envs with
  | nil => exact fun s _ => ⟨0, rfl⟩
  | cons e es ih =>
      intro s h
      by_cases hg : (e.now : Int) - (s.last_bus_activity : Int)
          < (LINE_READY_TIME_MS : Nat)
      · obtain ⟨j, hj⟩ := ih s h
        exact ⟨j, by simp [runTx, transmit, h, hg, txWrites, hj]⟩
      · cases hw : e.writeOk
        · obtain ⟨j, hj⟩ := ih s h
          exact ⟨j, by
            simp [runTx, transmit, h, hg, hw, txWrites, enableActions,
              disableActions, hj]⟩
        · cases hwait : e.waitOk
          · obtain ⟨j, hj⟩ := ih s h
            exact ⟨j + 1, by
              simp [runTx, transmit, h, hg, hw, hwait, txWrites,
                enableActions, disableActions, hj, List.replicate_succ]⟩
          · refine ⟨1, ?_⟩
            have hrest := runTx_writes_nil_queue es
              { s with last_bus_activity := e.doneTime, output_messages := [] }
              rfl
            simp [runTx, transmit, h, hg, hw, hwait, txWrites, enableActions,
              disableActions, hrest]

theorem runTx_writes_pair (A B : List Nat) (envs : List TxEnv) :
    ∀ s : BusState, s.output_messages = [A, B] →
      ∃ i j, (runTx s envs).2
        = List.replicate i A ++ List.replicate j B := by
  induction envs with
  | nil => exact fun s _ => ⟨0, 0, rfl⟩
  | cons e es ih =>
      intro s h
      by_cases hg : (e.now : Int) - (s.last_bus_activity : Int)
          < (LINE_READY_TIME_MS : Nat)
      · obtain ⟨i, j, hj⟩ := ih s h
        exact ⟨i, j, by simp [runTx, transmit, h, hg, txWrites, hj]⟩
      · cases hw : e.writeOk
        · obtain ⟨i, j, hj⟩ := ih s h
          exact ⟨i, j, by
            simp [runTx, transmit, h, hg, hw, txWrites, enableActions,
              disableActions, hj]⟩
        · cases hwait : e.waitOk
          · obtain ⟨i, j, hj⟩ := ih s h
            exact ⟨i + 1, j, by
              simp [runTx, transmit, h, hg, hw, hwait, txWrites,
                enableActions, disableActions, hj, List.replicate_succ]⟩
          · obtain ⟨j, hj⟩ := runTx_writes_single B es
              { s with last_bus_activity := e.doneTime, output_messages := [B] }
              rfl
            exact ⟨1, j, by
              simp [runTx, transmit, h, hg, hw, hwait, txWrites,
                enableActions, disableActions, hj, List.replicate_succ]⟩

/-- C8: enqueueing frame A then frame B, over any run of service ticks the
channel receives whole-frame writes forming some repetitions of A (retries
of a frame whose completion wait failed) followed by repetitions of B — in
particular every A write precedes every B write and frames are never
interleaved — and any attempt that writes at all passed the line-idle gate:
at least `LINE_READY_TIME_MS` (10 ms) elapsed since the last observed bus
activity. -/
theorem transmit_fifo_order (A B : List Nat) :
    (∀ (s : BusState) (envs : List TxEnv), s.output_messages = [A, B] →
      ∃ i j, (runTx s envs).2
        = List.replicate i A ++ List.replicate j B)
    ∧ (∀ (s : BusState) (env : TxEnv),
      txWrites (transmit s env).2.2 ≠ [] →
      (LINE_READY_TIME_MS : Int)
        ≤ (env.now : Int) - (s.last_bus_activity : Int)) := by
  constructor
  · exact fun s envs h => runTx_writes_pair A B envs s h
  · intro s env hne
    rcases hq : s.output_messages with _ | ⟨f, r⟩
    · simp [transmit, hq, txWrites] at hne
    · by_cases hg : (env.now : Int) - (s.last_bus_activity : Int)
          < (LINE_READY_TIME_MS : Nat)
      · simp [transmit, hq, hg, txWrites] at hne
      · exact not_lt.mp hg

/-- Witness for C8: a two-frame queue and one successful tick. -/
theorem transmit_fifo_order_witness :
    (∃ i j,
      (runTx { initState 2 20 0 with output_messages := [[1], [2]] }
          [{ now := 20, writeOk := true, waitOk := true, doneTime := 21 }]).2
        = List.replicate i [1] ++ List.replicate j [2])
    ∧ (LINE_READY_TIME_MS : Int)
        ≤ (({ now := 20, writeOk := true, waitOk := true,
              doneTime := 21 } : TxEnv).now : Int)
          - (({ initState 2 20 0 with
                output_messages := [[1], [2]] } : BusState).last_bus_activity
              : Int) :=
  ⟨(transmit_fifo_order [1] [2]).1 _ _ rfl,
   (transmit_fifo_order [1] [2]).2 _ _ (by decide)⟩

/-! ## Claim C9: the receiver is `IDLE` iff no reception is in progress -/

theorem process_byte_inv (now byte : Nat) (s : BusState)
    (h : s.receiver_state = .IDLE ↔ s.receiving_message = none) :
    (process_byte now s byte).receiver_state = .IDLE
      ↔ (process_byte now s byte).receiving_message = none := by
  cases hs : s.receiver_state <;> cases hr : s.receiving_message <;>
    simp only [process_byte, hs, hr] <;> (try split) <;> (try split) <;>
    (try split) <;> simp_all

theorem receive_byte_inv (now byte : Nat) (s : BusState)
    (h : s.receiver_state = .IDLE ↔ s.receiving_message = none) :
    (receive_byte now s byte).receiver_state = .IDLE
      ↔ (receive_byte now s byte).receiving_message = none := by
  rw [receive_byte]
  split
  · exact h
  · exact process_byte_inv now byte _ (by simpa using h)

theorem check_packet_timeout_inv (now : Nat) (s : BusState)
    (h : s.receiver_state = .IDLE ↔ s.receiving_message = none) :
    (check_packet_timeout now s).receiver_state = .IDLE
      ↔ (check_packet_timeout now s).receiving_message = none := by
  rw [check_packet_timeout]
  split
  · simp
  · exact h

theorem transmit_preserves_receiver (s : BusState) (env : TxEnv) :
    (transmit s env).1.receiver_state = s.receiver_state
      ∧ (transmit s env).1.receiving_message = s.receiving_message := by
  rcases hq : s.output_messages with _ | ⟨f, r⟩ <;>
    simp only [transmit, hq] <;> (try split) <;> (try split) <;>
    (try split) <;> simp

theorem send_message_ok_state {s s' : BusState} {b : Bool}
    {dst tid : Nat} {payload : List Nat}
    (h : send_message s dst payload tid = .ok (s', b)) :
    s'.receiver_state = s.receiver_state
      ∧ s'.receiving_message = s.receiving_message := by
  rw [send_message] at h
  split at h
  · cases h
  · split at h
    · cases h
    · cases h
      simp

theorem read_message_ok_state {s s' : BusState} {m : ReceivedMessage}
    (h : read_message s = .ok (m, s')) :
    s'.receiver_state = s.receiver_state
      ∧ s'.receiving_message = s.receiving_message := by
  rw [read_message] at h
  split at h
  · cases h
  · cases h
    simp

/-- C9: in every state reachable through construction, service-tick steps and
the public API, the receiver state is `IDLE` exactly when the in-progress
reception is absent; consequently whenever the packet-timeout check in `loop`
reads the reception's start timestamp (receiver state not `IDLE`), the
reception object is present. -/
theorem receiver_state_receiving_consistent (s : BusState)
    (hre : Reachable s) :
    (s.receiver_state = .IDLE ↔ s.receiving_message = none)
    ∧ (s.receiver_state ≠ .IDLE → ∃ r, s.receiving_message = some r) := by
  have hinv : s.receiver_state = .IDLE ↔ s.receiving_message = none := by
    induction hre with
    | init address toggle t haddr htoggle => simp [initState]
    | recv now byte _ ih => exact receive_byte_inv now byte _ ih
    | timeout now _ ih => exact check_packet_timeout_inv now _ ih
    | transmitStep env _ ih =>
        rw [(transmit_preserves_receiver _ env).1,
          (transmit_preserves_receiver _ env).2]
        exact ih
    | send dst payload tid h _ ih =>
        rw [(send_message_ok_state h).1, (send_message_ok_state h).2]
        exact ih
    | readStep h _ ih =>
        rw [(read_message_ok_state h).1, (read_message_ok_state h).2]
        exact ih
    | setAddr address haddr _ ih => exact ih
  refine ⟨hinv, fun hne => ?_⟩
  cases hrm : s.receiving_message with
  | some r => exact ⟨r, rfl⟩
  | none => exact absurd (hinv.mpr hrm) hne

/-- Witness for C9 at a reachable non-`IDLE` state: the initial state after
one received `SOH` byte. -/
theorem receiver_state_receiving_consistent_witness :
    ((receive_byte 1 (initState 2 20 0) SOH).receiver_state
        = ReceiverState.IDLE
      ↔ (receive_byte 1 (initState 2 20 0) SOH).receiving_message = none)
    ∧ ((receive_byte 1 (initState 2 20 0) SOH).receiver_state
        ≠ ReceiverState.IDLE →
      ∃ r, (receive_byte 1 (initState 2 20 0) SOH).receiving_message
        = some r) :=
  receiver_state_receiving_consistent _
    (Reachable.recv 1 SOH (Reachable.init 2 20 0 (by decide) (by decide)))

/-! ## Infrastructure for claim C2: nibble corruption facts -/

set_option maxRecDepth 10000 in
theorem nibbleDecomp : ∀ p, p < 256 →
    p &&& 240 = 16 * ((p >>> 4) &&& 15)
    ∧ ((p >>> 4) &&& 15) < 16 ∧ (p &&& 15) < 16 := by
  decide

set_option maxRecDepth 10000 in
theorem validEnc_form : ∀ b, b < 256 → is_valid_encoded_byte b = true →
    ∃ k, k < 16 ∧ b = 15 * (k + 1) := by
  decide

set_option maxRecDepth 10000 in
theorem corruptPairFactsHi : ∀ k, k < 16 → ∀ l, l < 16 →
    encHi ((15 * (k + 1) &&& 240) ||| l) = 15 * (k + 1)
    ∧ ((15 * (k + 1) &&& 240) ||| l) &&& 15 = l
    ∧ ((15 * (k + 1) &&& 240) ||| l) < 256 := by
  decide

set_option maxRecDepth 10000 in
theorem corruptPairFactsLo : ∀ h, h < 16 → ∀ k, k < 16 →
    encLo ((16 * h) ||| (15 * (k + 1) &&& 15)) = 15 * (k + 1)
    ∧ ((16 * h) ||| (15 * (k + 1) &&& 15)) &&& 240 = 16 * h
    ∧ ((16 * h) ||| (15 * (k + 1) &&& 15)) < 256 := by
  decide

theorem encLo_and15 (p : Nat) : encLo (p &&& 15) = encLo p := by
  simp [encLo, Nat.and_assoc]

theorem encHi_and240 (p : Nat) : encHi (p &&& 240) = encHi p := by
  simp [encHi, Nat.and_assoc]

/-- Replacing the high-nibble wire byte of `pk` by another valid encoded
byte `c` yields the encoding of the payload byte
`(c &&& 240) ||| (pk &&& 15)`. -/
theorem corruptHi {c pk : Nat} (hc : c < 256) (hpk : pk < 256)
    (hv : is_valid_encoded_byte c = true) :
    encHi ((c &&& 240) ||| (pk &&& 15)) = c
    ∧ encLo ((c &&& 240) ||| (pk &&& 15)) = encLo pk
    ∧ ((c &&& 240) ||| (pk &&& 15)) < 256 := by
  obtain ⟨k, hk, rfl⟩ := validEnc_form c hc hv
  have hl : pk &&& 15 < 16 := (nibbleDecomp pk hpk).2.2
  obtain ⟨h1, h2, h3⟩ := corruptPairFactsHi k hk (pk &&& 15) hl
  refine ⟨h1, ?_, h3⟩
  rw [← encLo_and15 ((15 * (k + 1) &&& 240) ||| (pk &&& 15)), h2, encLo_and15]

/-- Replacing the low-nibble wire byte of `pk` by another valid encoded byte
`c` yields the encoding of the payload byte `(pk &&& 240) ||| (c &&& 15)`. -/
theorem corruptLo {c pk : Nat} (hc : c < 256) (hpk : pk < 256)
    (hv : is_valid_encoded_byte c = true) :
    encLo ((pk &&& 240) ||| (c &&& 15)) = c
    ∧ encHi ((pk &&& 240) ||| (c &&& 15)) = encHi pk
    ∧ ((pk &&& 240) ||| (c &&& 15)) < 256 := by
  obtain ⟨k, hk, rfl⟩ := validEnc_form c hc hv
  have h240 := (nibbleDecomp pk hpk).1
  have hh : (pk >>> 4) &&& 15 < 16 := (nibbleDecomp pk hpk).2.1
  obtain ⟨h1, h2, h3⟩ := corruptPairFactsLo _ hh k hk
  rw [h240]
  refine ⟨h1, ?_, h3⟩
  rw [← encHi_and240 ((16 * ((pk >>> 4) &&& 15)) ||| (15 * (k + 1) &&& 15)),
    h2, ← h240, encHi_and240]

/-! ## Infrastructure for claim C2: XOR cancellation -/

theorem xor_left_comm (a b c : Nat) : a ^^^ (b ^^^ c) = b ^^^ (a ^^^ c) := by
  rw [← Nat.xor_assoc, Nat.xor_comm a b, Nat.xor_assoc]

theorem xor_cancel_left (a b : Nat) : a ^^^ (a ^^^ b) = b := by
  rw [← Nat.xor_assoc, Nat.xor_self, Nat.zero_xor]

theorem xor_right_cancel' {a b c : Nat} (h : a ^^^ c = b ^^^ c) : a = b := by
  have h2 := congrArg (fun x => x ^^^ c) h
  simpa [Nat.xor_assoc] using h2

theorem xor_left_cancel' {a b c : Nat} (h : a ^^^ b = a ^^^ c) : b = c := by
  rw [Nat.xor_comm a b, Nat.xor_comm a c] at h
  exact xor_right_cancel' h

theorem xorFold_zero_cons (x : Nat) (l : List Nat) :
    xorFold 0 (x :: l) = x ^^^ xorFold 0 l := by
  rw [xorFold_cons, xorFold_eq_xor]
  simp

theorem xorFold_zero_set (P : List Nat) : ∀ k v, k < P.length →
    xorFold 0 (P.set k v) = xorFold 0 P ^^^ P.getD k 0 ^^^ v := by
  induction P with
  | nil => intro k v h; simp at h
  | cons p P ih =>
      intro k v _
      cases k with
      | zero =>
          simp only [List.set, List.getD_cons_zero]
          rw [xorFold_zero_cons, xorFold_zero_cons]
          simp [Nat.xor_assoc, Nat.xor_comm, xor_left_comm, xor_cancel_left]
      | succ k =>
          simp only [List.set_cons_succ, List.getD_cons_succ]
          rw [xorFold_zero_cons, xorFold_zero_cons,
            ih k v (by simp at *; omega)]
          simp [Nat.xor_assoc]

/-! ## Infrastructure for claim C2: structure of the encoded body -/

theorem encodeBody_cons (p : Nat) (P : List Nat) :
    encodeBody (p :: P) = encHi p :: encLo p :: encodeBody P := by
  simp [encodeBody]

theorem encodeBody_length (P : List Nat) :
    (encodeBody P).length = 2 * P.length := by
  induction P with
  | nil => rfl
  | cons p P ih => rw [encodeBody_cons]; simp [ih]; omega

theorem encodeBody_ne_soh {P : List Nat} (hP : ∀ b ∈ P, b < 256) :
    ∀ b ∈ encodeBody P, b ≠ SOH := by
  intro b hb
  simp only [encodeBody, List.mem_flatMap, List.mem_cons,
    List.not_mem_nil, or_false] at hb
  obtain ⟨p, hp, hbe⟩ := hb
  rcases hbe with h | h <;> subst h
  · exact encHi_ne_soh (hP p hp)
  · exact encLo_ne_soh (hP p hp)

theorem encodeBody_set_even (P : List Nat) : ∀ k c, k < P.length →
    is_valid_encoded_byte c = true → c < 256 → (∀ b ∈ P, b < 256) →
    (encodeBody P).set (2 * k) c
      = encodeBody (P.set k ((c &&& 240) ||| (P.getD k 0 &&& 15))) := by
  induction P with
  | nil => intro k c h; simp at h
  | cons p P ih =>
      intro k c hk hv hc hb
      cases k with
      | zero =>
          obtain ⟨h1, h2, -⟩ := corruptHi hc (hb p (by simp)) hv
          simp [encodeBody, List.set, h1, h2, List.flatMap_def]
      | succ k =>
          have h2k : 2 * (k + 1) = 2 * k + 1 + 1 := by omega
          rw [encodeBody_cons, h2k, List.set_cons_succ, List.set_cons_succ,
            ih k c (by simp at hk; omega) hv hc fun b hb' => hb b (by simp [hb'])]
          simp [encodeBody_cons, List.set_cons_succ, List.getD_cons_succ]

theorem encodeBody_set_odd (P : List Nat) : ∀ k c, k < P.length →
    is_valid_encoded_byte c = true → c < 256 → (∀ b ∈ P, b < 256) →
    (encodeBody P).set (2 * k + 1) c
      = encodeBody (P.set k ((P.getD k 0 &&& 240) ||| (c &&& 15))) := by
  induction P with
  | nil => intro k c h; simp at h
  | cons p P ih =>
      intro k c hk hv hc hb
      cases k with
      | zero =>
          obtain ⟨h1, h2, -⟩ := corruptLo hc (hb p (by simp)) hv
          simp [encodeBody, List.set, h1, h2, List.flatMap_def]
      | succ k =>
          have h2k : 2 * (k + 1) + 1 = 2 * k + 1 + 1 + 1 := by omega
          rw [encodeBody_cons, h2k, List.set_cons_succ, List.set_cons_succ,
            ih k c (by simp at hk; omega) hv hc fun b hb' => hb b (by simp [hb'])]
          simp [encodeBody_cons, List.set_cons_succ, List.getD_cons_succ]

theorem encodeBody_take_even (P : List Nat) : ∀ k,
    (encodeBody P).take (2 * k) = encodeBody (P.take k) := by
  induction P with
  | nil => intro k; simp [encodeBody]
  | cons p P ih =>
      intro k
      cases k with
      | zero => simp [encodeBody]
      | succ k =>
          have h2k : 2 * (k + 1) = 2 * k + 1 + 1 := by omega
          rw [encodeBody_cons, h2k, List.take_succ_cons, List.take_succ_cons,
            ih k]
          simp [List.take_succ_cons, encodeBody_cons]

theorem encodeBody_getD_even (P : List Nat) : ∀ k, k < P.length →
    (encodeBody P).getD (2 * k) 0 = encHi (P.getD k 0) := by
  induction P with
  | nil => intro k h; simp at h
  | cons p P ih =>
      intro k hk
      cases k with
      | zero => simp [encodeBody_cons]
      | succ k =>
          have h2k : 2 * (k + 1) = 2 * k + 1 + 1 := by omega
          rw [encodeBody_cons, h2k, List.getD_cons_succ, List.getD_cons_succ,
            List.getD_cons_succ, ih k (by simp at hk; omega)]

theorem encodeBody_getD_odd (P : List Nat) : ∀ k, k < P.length →
    (encodeBody P).getD (2 * k + 1) 0 = encLo (P.getD k 0) := by
  induction P with
  | nil => intro k h; simp at h
  | cons p P ih =>
      intro k hk
      cases k with
      | zero => simp [encodeBody_cons]
      | succ k =>
          have h2k : 2 * (k + 1) + 1 = 2 * k + 1 + 1 + 1 := by omega
          rw [encodeBody_cons, h2k, List.getD_cons_succ, List.getD_cons_succ,
            List.getD_cons_succ, ih k (by simp at hk; omega)]

/-! ## Infrastructure for claim C2: discard cascades never produce a
message -/

theorem encHi_bounds {p : Nat} (hp : p < 256) :
    15 ≤ encHi p ∧ encHi p ≤ 240 :=
  ⟨(encByteFacts p hp).2.2.2.2.1, (encByteFacts p hp).2.2.2.2.2.1⟩

theorem encLo_bounds {p : Nat} (hp : p < 256) :
    15 ≤ encLo p ∧ encLo p ≤ 240 :=
  ⟨(encByteFacts p hp).2.2.2.2.2.2.1, (encByteFacts p hp).2.2.2.2.2.2.2⟩

/-- Processing an arbitrary byte, then `EOT LF LF`, from `IDLE`: even when
the byte happens to be `SOH` and `EOT` happens to match the node address as a
destination, no message can complete, so the inbound queue is unchanged. -/
theorem processCrcTail (now : Nat) (s : BusState) (c : Nat)
    (hs : s.receiver_state = .IDLE) :
    (processBytes now s [c, EOT, LF, LF]).received_messages
      = s.received_messages := by
  by_cases hc : c = SOH
  · subst hc
    have e1 : process_byte now s SOH
        = { s with
            receiver_state := .SOH_RECEIVED
            receiving_message := some (ReceivingMessage.init now) } :=
      pb_idle_soh hs
    by_cases ha : s.address = EOT
    · have e2 : process_byte now
          { s with
            receiver_state := .SOH_RECEIVED
            receiving_message := some (ReceivingMessage.init now) } EOT
          = { s with
              receiver_state := .DEST_ADDRESS_RECEIVED
              receiving_message := some
                { timestamp := now, dst_address := EOT, src_address := 0,
                  transaction_id := 0, length := 0, crc := 0,
                  is_first_nibble := true, incoming := 0,
                  payload_buffer := [] } } :=
        pb_soh_accept (by simp) rfl (Or.inl (by simp [ha]))
      have e3 : process_byte now
          { s with
            receiver_state := .DEST_ADDRESS_RECEIVED
            receiving_message := some
              { timestamp := now, dst_address := EOT, src_address := 0,
                transaction_id := 0, length := 0, crc := 0,
                is_first_nibble := true, incoming := 0,
                payload_buffer := [] } } LF
          = { s with
              receiver_state := .SRC_ADDRESS_RECEIVED
              receiving_message := some
                { timestamp := now, dst_address := EOT, src_address := LF,
                  transaction_id := 0, length := 0, crc := 0,
                  is_first_nibble := true, incoming := 0,
                  payload_buffer := [] } } :=
        pb_dest (by simp) rfl
      have e4 : process_byte now
          { s with
            receiver_state := .SRC_ADDRESS_RECEIVED
            receiving_message := some
              { timestamp := now, dst_address := EOT, src_address := LF,
                transaction_id := 0, length := 0, crc := 0,
                is_first_nibble := true, incoming := 0,
                payload_buffer := [] } } LF
          = { s with
              receiver_state := .TRANSACTION_ID_RECEIVED
              receiving_message := some
                { timestamp := now, dst_address := EOT, src_address := LF,
                  transaction_id := LF, length := 0, crc := 0,
                  is_first_nibble := true, incoming := 0,
                  payload_buffer := [] } } :=
        pb_src (by simp) rfl
      rw [processBytes_cons, e1, processBytes_cons, e2, processBytes_cons, e3,
        processBytes_cons, e4, processBytes_nil]
    · have e2 : process_byte now
          { s with
            receiver_state := .SOH_RECEIVED
            receiving_message := some (ReceivingMessage.init now) } EOT
          = { s with receiver_state := .IDLE, receiving_message := none } :=
        pb_soh_reject (by simp) rfl (Ne.symm ha) (by decide)
      have e3 := processIdleSkip now [LF, LF]
        { s with receiver_state := .IDLE, receiving_message := none }
        (by simp) (by decide)
      rw [processBytes_cons, e1, processBytes_cons, e2, e3]
  · have e := processIdleSkip now [c, EOT, LF, LF] s hs (by
      intro b hb
      simp only [List.mem_cons, List.not_mem_nil, or_false] at hb
      rcases hb with rfl | rfl | rfl | rfl
      exacts [hc, by decide, by decide, by decide])
    rw [e]

/-- Skipping a run of non-`SOH` bytes while `IDLE` and then the four-byte
tail `c EOT LF LF` leaves the inbound queue unchanged. -/
theorem skipThenCrcTail (now : Nat) (s : BusState) (pre : List Nat)
    (crcb : Nat) (hs : s.receiver_state = .IDLE)
    (hpre : ∀ b ∈ pre, b ≠ SOH) :
    (processBytes now s (pre ++ crcb :: EOT :: LF :: LF :: [])
      ).received_messages = s.received_messages := by
  rw [processBytes_append, processIdleSkip now pre s hs hpre]
  exact processCrcTail now s crcb hs

/-- A resynchronization attempt that starts with `STX` in the destination
slot, continues with one encoded byte pair and `ETX` in the header slots and
reaches the length check, always discards without appending a message. -/
theorem cascadeFromSoh (now : Nat) (s : BusState) (r : ReceivingMessage)
    (p crcb : Nat)
    (hs : s.receiver_state = .SOH_RECEIVED)
    (hr : s.receiving_message = some r) (hp : p < 256) :
    (processBytes now s
        (STX :: encHi p :: encLo p :: ETX :: crcb :: EOT :: LF :: LF :: [])
      ).received_messages = s.received_messages := by
  by_cases ha : s.address = STX
  · have e1 : process_byte now s STX
        = { s with
            receiver_state := .DEST_ADDRESS_RECEIVED
            receiving_message := some { r with dst_address := STX } } :=
      pb_soh_accept hs hr (Or.inl ha.symm)
    have e2 : process_byte now
        { s with
          receiver_state := .DEST_ADDRESS_RECEIVED
          receiving_message := some { r with dst_address := STX } } (encHi p)
        = { s with
            receiver_state := .SRC_ADDRESS_RECEIVED
            receiving_message := some
              { r with dst_address := STX, src_address := encHi p } } :=
      pb_dest (by simp) rfl
    have e3 : process_byte now
        { s with
          receiver_state := .SRC_ADDRESS_RECEIVED
          receiving_message := some
            { r with dst_address := STX, src_address := encHi p } } (encLo p)
        = { s with
            receiver_state := .TRANSACTION_ID_RECEIVED
            receiving_message := some
              { r with dst_address := STX, src_address := encHi p,
                       transaction_id := encLo p } } :=
      pb_src (by simp) rfl
    have e4 : process_byte now
        { s with
          receiver_state := .TRANSACTION_ID_RECEIVED
          receiving_message := some
            { r with dst_address := STX, src_address := encHi p,
                     transaction_id := encLo p } } ETX
        = { s with
            receiver_state := .MESSAGE_LEN_RECEIVED
            receiving_message := some
              { r with dst_address := STX, src_address := encHi p,
                       transaction_id := encLo p, length := ETX } } :=
      pb_tid_ok (by simp) rfl (by decide) (by decide)
    rw [processBytes_cons, e1, processBytes_cons, e2, processBytes_cons, e3,
      processBytes_cons, e4]
    by_cases hcb : crcb = STX
    · subst hcb
      have e5 : process_byte now
          { s with
            receiver_state := .MESSAGE_LEN_RECEIVED
            receiving_message := some
              { r with dst_address := STX, src_address := encHi p,
                       transaction_id := encLo p, length := ETX } } STX
          = { s with
              receiver_state := .STX_RECEIVED
              receiving_message := some
                { r with dst_address := STX, src_address := encHi p,
                         transaction_id := encLo p, length := ETX,
                         crc := STX ^^^ encHi p ^^^ ETX } } :=
        pb_len_stx (by simp) rfl
      have e6 : process_byte now
          { s with
            receiver_state := .STX_RECEIVED
            receiving_message := some
              { r with dst_address := STX, src_address := encHi p,
                       transaction_id := encLo p, length := ETX,
                       crc := STX ^^^ encHi p ^^^ ETX } } EOT
          = { s with receiver_state := .IDLE, receiving_message := none } :=
        pb_stx_junk (by simp) rfl (by decide) (by decide)
      have e7 := processIdleSkip now [LF, LF]
        { s with receiver_state := .IDLE, receiving_message := none }
        (by simp) (by decide)
      rw [processBytes_cons, e5, processBytes_cons, e6, e7]
    · have e5 : process_byte now
          { s with
            receiver_state := .MESSAGE_LEN_RECEIVED
            receiving_message := some
              { r with dst_address := STX, src_address := encHi p,
                       transaction_id := encLo p, length := ETX } } crcb
          = { s with receiver_state := .IDLE, receiving_message := none } :=
        pb_len_other (by simp) rfl hcb
      have e6 := processIdleSkip now [EOT, LF, LF]
        { s with receiver_state := .IDLE, receiving_message := none }
        (by simp) (by decide)
      rw [processBytes_cons, e5, e6]
  · have e1 : process_byte now s STX
        = { s with receiver_state := .IDLE, receiving_message := none } :=
      pb_soh_reject hs hr (Ne.symm ha) (by decide)
    have hsplit :
        (encHi p :: encLo p :: ETX :: crcb :: EOT :: LF :: LF :: []
          : List Nat)
          = [encHi p, encLo p, ETX] ++ crcb :: EOT :: LF :: LF :: [] := rfl
    rw [processBytes_cons, e1, hsplit]
    exact skipThenCrcTail now _ _ crcb (by simp) (by
      intro b hb
      simp only [List.mem_cons, List.not_mem_nil, or_false] at hb
      rcases hb with rfl | rfl | rfl
      exacts [encHi_ne_soh hp, encLo_ne_soh hp, by decide])

/-- After a rejected destination byte the rest of a frame — source byte,
transaction byte, length byte, `STX`, encoded body, `ETX`, checksum byte,
`EOT`, `LF LF` — can re-trigger the receiver in several ways (any of the
three header bytes may equal `SOH`, and the checksum byte is arbitrary), but
no re-parse ever completes: the inbound queue is unchanged. -/
theorem afterDstReject (now : Nat) (s : BusState) (src tid crcb : Nat)
    (P : List Nat)
    (hs : s.receiver_state = .IDLE)
    (hP : ∀ b ∈ P, b < 256) (hL : 1 ≤ P.length) :
    (processBytes now s
        (src :: tid :: P.length :: STX
          :: (encodeBody P ++ ETX :: crcb :: EOT :: LF :: LF :: []))
      ).received_messages = s.received_messages := by
  cases P with
  | nil => simp at hL
  | cons p P' =>
  have hp : p < 256 := hP p (by simp)
  have hP' : ∀ b ∈ P', b < 256 := fun b hb => hP b (by simp [hb])
  by_cases hsrc1 : src = SOH
  · subst hsrc1
    have e1 : process_byte now s SOH
        = { s with
            receiver_state := .SOH_RECEIVED
            receiving_message := some (ReceivingMessage.init now) } :=
      pb_idle_soh hs
    rw [processBytes_cons, e1]
    by_cases htid_acc : tid = s.address ∨ tid = BROADCAST_ADDRESS
    · -- the transaction byte is accepted as a destination
      have e2 : process_byte now
          { s with
            receiver_state := .SOH_RECEIVED
            receiving_message := some (ReceivingMessage.init now) } tid
          = { s with
              receiver_state := .DEST_ADDRESS_RECEIVED
              receiving_message := some
                { timestamp := now, dst_address := tid, src_address := 0,
                  transaction_id := 0, length := 0, crc := 0,
                  is_first_nibble := true, incoming := 0,
                  payload_buffer := [] } } :=
        pb_soh_accept (by simp) rfl (by simpa using htid_acc)
      have e3 : process_byte now
          { s with
            receiver_state := .DEST_ADDRESS_RECEIVED
            receiving_message := some
              { timestamp := now, dst_address := tid, src_address := 0,
                transaction_id := 0, length := 0, crc := 0,
                is_first_nibble := true, incoming := 0,
                payload_buffer := [] } } ((p :: P').length)
          = { s with
              receiver_state := .SRC_ADDRESS_RECEIVED
              receiving_message := some
                { timestamp := now, dst_address := tid,
                  src_address := (p :: P').length,
                  transaction_id := 0, length := 0, crc := 0,
                  is_first_nibble := true, incoming := 0,
                  payload_buffer := [] } } :=
        pb_dest (by simp) rfl
      have e4 : process_byte now
          { s with
            receiver_state := .SRC_ADDRESS_RECEIVED
            receiving_message := some
              { timestamp := now, dst_address := tid,
                src_address := (p :: P').length,
                transaction_id := 0, length := 0, crc := 0,
                is_first_nibble := true, incoming := 0,
                payload_buffer := [] } } STX
          = { s with
              receiver_state := .TRANSACTION_ID_RECEIVED
              receiving_message := some
                { timestamp := now, dst_address := tid,
                  src_address := (p :: P').length,
                  transaction_id := STX, length := 0, crc := 0,
                  is_first_nibble := true, incoming := 0,
                  payload_buffer := [] } } :=
        pb_src (by simp) rfl
      have hb : encodeBody (p :: P') ++ ETX :: crcb :: EOT :: LF :: LF :: []
          = encHi p
            :: encLo p
            :: (encodeBody P' ++ ETX :: crcb :: EOT :: LF :: LF :: []) := by
        simp [encodeBody_cons]
      have e5 : process_byte now
          { s with
            receiver_state := .TRANSACTION_ID_RECEIVED
            receiving_message := some
              { timestamp := now, dst_address := tid,
                src_address := (p :: P').length,
                transaction_id := STX, length := 0, crc := 0,
                is_first_nibble := true, incoming := 0,
                payload_buffer := [] } } (encHi p)
          = { s with
              receiver_state := .MESSAGE_LEN_RECEIVED
              receiving_message := some
                { timestamp := now, dst_address := tid,
                  src_address := (p :: P').length,
                  transaction_id := STX, length := encHi p, crc := 0,
                  is_first_nibble := true, incoming := 0,
                  payload_buffer := [] } } :=
        pb_tid_ok (by simp) rfl
          (by have := (encHi_bounds hp).1; omega)
          (by have := (encHi_bounds hp).2; simp only [MAX_MESSAGE_LEN]; omega)
      have e6 : process_byte now
          { s with
            receiver_state := .MESSAGE_LEN_RECEIVED
            receiving_message := some
              { timestamp := now, dst_address := tid,
                src_address := (p :: P').length,
                transaction_id := STX, length := encHi p, crc := 0,
                is_first_nibble := true, incoming := 0,
                payload_buffer := [] } } (encLo p)
          = { s with receiver_state := .IDLE, receiving_message := none } :=
        pb_len_other (by simp) rfl
          (by have := (encLo_bounds hp).1; simp only [STX]; omega)
      have hsplit : encodeBody P' ++ ETX :: crcb :: EOT :: LF :: LF :: []
          = (encodeBody P' ++ [ETX]) ++ crcb :: EOT :: LF :: LF :: [] := by
        simp
      rw [processBytes_cons, e2, processBytes_cons, e3, processBytes_cons, e4,
        hb, processBytes_cons, e5, processBytes_cons, e6, hsplit]
      exact skipThenCrcTail now _ _ crcb (by simp) (by
        intro b hb'
        rcases List.mem_append.mp hb' with h | h
        · exact encodeBody_ne_soh hP' b h
        · simp only [List.mem_cons, List.not_mem_nil, or_false] at h
          subst h; decide)
    · -- the transaction byte is rejected as a destination
      push_neg at htid_acc
      have e2 : process_byte now
          { s with
            receiver_state := .SOH_RECEIVED
            receiving_message := some (ReceivingMessage.init now) } tid
          = { s with receiver_state := .IDLE, receiving_message := none } :=
        pb_soh_reject (by simp) rfl htid_acc.1 htid_acc.2
      rw [processBytes_cons, e2]
      by_cases hn1 : (p :: P').length = SOH
      · -- declared length 1: the length byte re-triggers `SOH`
        have hP'nil : P' = [] := by
          simp only [List.length_cons, SOH] at hn1
          simpa using List.eq_nil_of_length_eq_zero (by omega)
        subst hP'nil
        have e3 : process_byte now
            { s with receiver_state := .IDLE, receiving_message := none }
            ((p :: ([] : List Nat)).length)
            = { s with
                receiver_state := .SOH_RECEIVED
                receiving_message := some (ReceivingMessage.init now) } :=
          pb_idle_soh (by simp)
        have hlist : STX
            :: (encodeBody (p :: ([] : List Nat))
              ++ ETX :: crcb :: EOT :: LF :: LF :: [])
            = STX :: encHi p :: encLo p
              :: ETX :: crcb :: EOT :: LF :: LF :: [] := by
          simp [encodeBody]
        rw [processBytes_cons, e3, hlist]
        exact cascadeFromSoh now
          { s with
            receiver_state := .SOH_RECEIVED
            receiving_message := some (ReceivingMessage.init now) }
          (ReceivingMessage.init now) p crcb (by simp) rfl hp
      · -- declared length is inert in `IDLE`
        have hsplit : (p :: P').length :: STX
            :: (encodeBody (p :: P') ++ ETX :: crcb :: EOT :: LF :: LF :: [])
            = ((p :: P').length :: STX :: encodeBody (p :: P') ++ [ETX])
              ++ crcb :: EOT :: LF :: LF :: [] := by
          simp
        rw [hsplit]
        exact skipThenCrcTail now _ _ crcb (by simp) (by
          intro b hb'
          simp only [List.cons_append, List.mem_cons, List.mem_append,
            List.not_mem_nil, or_false] at hb'
          rcases hb' with rfl | rfl | h | rfl
          · exact hn1
          · decide
          · exact encodeBody_ne_soh hP b h
          · decide)
  · -- the source byte is inert in `IDLE`
    have e1 : process_byte now s src = s := pb_idle_other hs hsrc1
    rw [processBytes_cons, e1]
    by_cases htid1 : tid = SOH
    · subst htid1
      have e2 : process_byte now s SOH
          = { s with
              receiver_state := .SOH_RECEIVED
              receiving_message := some (ReceivingMessage.init now) } :=
        pb_idle_soh hs
      rw [processBytes_cons, e2]
      by_cases hn_acc : (p :: P').length = s.address
          ∨ (p :: P').length = BROADCAST_ADDRESS
      · -- the length byte is accepted as a destination
        have e3 : process_byte now
            { s with
              receiver_state := .SOH_RECEIVED
              receiving_message := some (ReceivingMessage.init now) }
            ((p :: P').length)
            = { s with
                receiver_state := .DEST_ADDRESS_RECEIVED
                receiving_message := some
                  { timestamp := now, dst_address := (p :: P').length,
                    src_address := 0, transaction_id := 0, length := 0,
                    crc := 0, is_first_nibble := true, incoming := 0,
                    payload_buffer := [] } } :=
          pb_soh_accept (by simp) rfl (by simpa using hn_acc)
        have e4 : process_byte now
            { s with
              receiver_state := .DEST_ADDRESS_RECEIVED
              receiving_message := some
                { timestamp := now, dst_address := (p :: P').length,
                  src_address := 0, transaction_id := 0, length := 0,
                  crc := 0, is_first_nibble := true, incoming := 0,
                  payload_buffer := [] } } STX
            = { s with
                receiver_state := .SRC_ADDRESS_RECEIVED
                receiving_message := some
                  { timestamp := now, dst_address := (p :: P').length,
                    src_address := STX, transaction_id := 0, length := 0,
                    crc := 0, is_first_nibble := true, incoming := 0,
                    payload_buffer := [] } } :=
          pb_dest (by simp) rfl
        have hb : encodeBody (p :: P') ++ ETX :: crcb :: EOT :: LF :: LF :: []
            = encHi p
              :: encLo p
              :: (encodeBody P' ++ ETX :: crcb :: EOT :: LF :: LF :: []) := by
          simp [encodeBody_cons]
        have e5 : process_byte now
            { s with
              receiver_state := .SRC_ADDRESS_RECEIVED
              receiving_message := some
                { timestamp := now, dst_address := (p :: P').length,
                  src_address := STX, transaction_id := 0, length := 0,
                  crc := 0, is_first_nibble := true, incoming := 0,
                  payload_buffer := [] } } (encHi p)
            = { s with
                receiver_state := .TRANSACTION_ID_RECEIVED
                receiving_message := some
                  { timestamp := now, dst_address := (p :: P').length,
                    src_address := STX, transaction_id := encHi p,
                    length := 0, crc := 0, is_first_nibble := true,
                    incoming := 0, payload_buffer := [] } } :=
          pb_src (by simp) rfl
        have e6 : process_byte now
            { s with
              receiver_state := .TRANSACTION_ID_RECEIVED
              receiving_message := some
                { timestamp := now, dst_address := (p :: P').length,
                  src_address := STX, transaction_id := encHi p,
                  length := 0, crc := 0, is_first_nibble := true,
                  incoming := 0, payload_buffer := [] } } (encLo p)
            = { s with
                receiver_state := .MESSAGE_LEN_RECEIVED
                receiving_message := some
                  { timestamp := now, dst_address := (p :: P').length,
                    src_address := STX, transaction_id := encHi p,
                    length := encLo p, crc := 0, is_first_nibble := true,
                    incoming := 0, payload_buffer := [] } } :=
          pb_tid_ok (by simp) rfl
            (by have := (encLo_bounds hp).1; omega)
            (by have := (encLo_bounds hp).2; simp only [MAX_MESSAGE_LEN]; omega)
        rw [processBytes_cons, e3, processBytes_cons, e4, hb,
          processBytes_cons, e5, processBytes_cons, e6]
        cases P' with
        | nil =>
            have e7 : process_byte now
                { s with
                  receiver_state := .MESSAGE_LEN_RECEIVED
                  receiving_message := some
                    { timestamp := now,
                      dst_address := (p :: ([] : List Nat)).length,
                      src_address := STX, transaction_id := encHi p,
                      length := encLo p, crc := 0, is_first_nibble := true,
                      incoming := 0, payload_buffer := [] } } ETX
                = { s with
                    receiver_state := .IDLE
                    receiving_message := none } :=
              pb_len_other (by simp) rfl (by decide)
            have hlist : encodeBody ([] : List Nat)
                ++ ETX :: crcb :: EOT :: LF :: LF :: []
                = ETX :: crcb :: EOT :: LF :: LF :: [] := by
              simp [encodeBody]
            rw [hlist, processBytes_cons, e7]
            exact processCrcTail now _ crcb (by simp)
        | cons q P'' =>
            have hq : q < 256 := hP' q (by simp)
            have hP'' : ∀ b ∈ P'', b < 256 := fun b hb' =>
              hP' b (by simp [hb'])
            have hb2 : encodeBody (q :: P'')
                ++ ETX :: crcb :: EOT :: LF :: LF :: []
                = encHi q
                  :: (encLo q :: encodeBody P''
                    ++ ETX :: crcb :: EOT :: LF :: LF :: []) := by
              simp [encodeBody_cons]
            have e7 : process_byte now
                { s with
                  receiver_state := .MESSAGE_LEN_RECEIVED
                  receiving_message := some
                    { timestamp := now,
                      dst_address := (p :: q :: P'').length,
                      src_address := STX, transaction_id := encHi p,
                      length := encLo p, crc := 0, is_first_nibble := true,
                      incoming := 0, payload_buffer := [] } } (encHi q)
                = { s with
                    receiver_state := .IDLE
                    receiving_message := none } :=
              pb_len_other (by simp) rfl
                (by have := (encHi_bounds hq).1; simp only [STX]; omega)
            have hsplit : encLo q :: encodeBody P''
                ++ ETX :: crcb :: EOT :: LF :: LF :: []
                = (encLo q :: encodeBody P'' ++ [ETX])
                  ++ crcb :: EOT :: LF :: LF :: [] := by
              simp
            rw [hb2, processBytes_cons, e7, hsplit]
            exact skipThenCrcTail now _ _ crcb (by simp) (by
              intro b hb'
              simp only [List.cons_append, List.mem_cons, List.mem_append,
                List.not_mem_nil, or_false] at hb'
              rcases hb' with rfl | h | rfl
              · exact encLo_ne_soh hq
              · exact encodeBody_ne_soh hP'' b h
              · decide)
      · -- the length byte is rejected as a destination
        push_neg at hn_acc
        have e3 : process_byte now
            { s with
              receiver_state := .SOH_RECEIVED
              receiving_message := some (ReceivingMessage.init now) }
            ((p :: P').length)
            = { s with receiver_state := .IDLE, receiving_message := none } :=
          pb_soh_reject (by simp) rfl hn_acc.1 hn_acc.2
        have hsplit : STX
            :: (encodeBody (p :: P') ++ ETX :: crcb :: EOT :: LF :: LF :: [])
            = (STX :: encodeBody (p :: P') ++ [ETX])
              ++ crcb :: EOT :: LF :: LF :: [] := by
          simp
        rw [processBytes_cons, e3, hsplit]
        exact skipThenCrcTail now _ _ crcb (by simp) (by
          intro b hb'
          simp only [List.cons_append, List.mem_cons, List.mem_append,
            List.not_mem_nil, or_false] at hb'
          rcases hb' with rfl | h | rfl
          · decide
          · exact encodeBody_ne_soh hP b h
          · decide)
    · by_cases hn1 : (p :: P').length = SOH
      · -- the length byte re-triggers `SOH`
        have hP'nil : P' = [] := by
          simp only [List.length_cons, SOH] at hn1
          simpa using List.eq_nil_of_length_eq_zero (by omega)
        subst hP'nil
        have e2 : process_byte now s tid = s := pb_idle_other hs htid1
        have e3 : process_byte now s ((p :: ([] : List Nat)).length)
            = { s with
                receiver_state := .SOH_RECEIVED
                receiving_message := some (ReceivingMessage.init now) } :=
          pb_idle_soh hs
        have hlist : STX
            :: (encodeBody (p :: ([] : List Nat))
              ++ ETX :: crcb :: EOT :: LF :: LF :: [])
            = STX :: encHi p :: encLo p
              :: ETX :: crcb :: EOT :: LF :: LF :: [] := by
          simp [encodeBody]
        rw [processBytes_cons, e2, processBytes_cons, e3, hlist]
        exact cascadeFromSoh now
          { s with
            receiver_state := .SOH_RECEIVED
            receiving_message := some (ReceivingMessage.init now) }
          (ReceivingMessage.init now) p crcb (by simp) rfl hp
      · -- everything up to the checksum byte is inert in `IDLE`
        have hsplit : tid :: (p :: P').length :: STX
            :: (encodeBody (p :: P') ++ ETX :: crcb :: EOT :: LF :: LF :: [])
            = (tid :: (p :: P').length :: STX :: encodeBody (p :: P')
                ++ [ETX])
              ++ crcb :: EOT :: LF :: LF :: [] := by
          simp
        rw [hsplit]
        exact skipThenCrcTail now _ _ crcb hs (by
          intro b hb'
          simp only [List.cons_append, List.mem_cons, List.mem_append,
            List.not_mem_nil, or_false] at hb'
          rcases hb' with rfl | rfl | rfl | h | rfl
          · exact htid1
          · exact hn1
          · decide
          · exact encodeBody_ne_soh hP b h
          · decide)

theorem getD_mem_of_lt (l : List Nat) (k : Nat) (h : k < l.length) :
    l.getD k 0 ∈ l := by
  rw [List.getD_eq_getElem l 0 h]
  exact List.getElem_mem h

theorem encodeBody_take_odd (P : List Nat) : ∀ k, k < P.length →
    (encodeBody P).take (2 * k + 1)
      = encodeBody (P.take k) ++ [encHi (P.getD k 0)] := by
  induction P with
  | nil => intro k h; simp at h
  | cons p P ih =>
      intro k hk
      cases k with
      | zero => simp [encodeBody_cons, encodeBody]
      | succ k =>
          have h2k : 2 * (k + 1) + 1 = 2 * k + 1 + 1 + 1 := by omega
          rw [encodeBody_cons, h2k, List.take_succ_cons, List.take_succ_cons,
            ih k (by simp at hk; omega)]
          simp [List.take_succ_cons, encodeBody_cons]

/-- In `STX_RECEIVED`, an invalid wire byte — including a premature `ETX`
when the buffered length does not match the declared one — discards the
reception. -/
theorem pb_stx_reset (now : Nat) (s : BusState) (r : ReceivingMessage)
    (c : Nat)
    (hs : s.receiver_state = .STX_RECEIVED)
    (hr : s.receiving_message = some r)
    (hv : is_valid_encoded_byte c = false)
    (hblen : r.payload_buffer.length ≠ r.length) :
    process_byte now s c
      = { s with receiver_state := .IDLE, receiving_message := none } := by
  by_cases hcE : c = ETX
  · subst hcE
    exact pb_stx_etx_bad hs hr hblen
  · exact pb_stx_junk hs hr hv hcE

/-- In `STX_RECEIVED` with a complete body, an `ETX` followed by a wrong
checksum byte discards the reception; the trailing `EOT LF LF` is then
inert. -/
theorem stxThenWrongCrc (now : Nat) (s : BusState) (r : ReceivingMessage)
    (crcb : Nat)
    (hs : s.receiver_state = .STX_RECEIVED)
    (hr : s.receiving_message = some r)
    (hblen : r.payload_buffer.length = r.length)
    (hcrc : crcb ≠ r.crc) :
    (processBytes now s (ETX :: crcb :: EOT :: LF :: LF :: [])
      ).received_messages = s.received_messages := by
  have e1 : process_byte now s ETX
      = { s with receiver_state := .ETX_RECEIVED } :=
    pb_stx_etx_ok hs hr hblen
  have e2 : process_byte now { s with receiver_state := .ETX_RECEIVED } crcb
      = { s with receiver_state := .IDLE, receiving_message := none } :=
    pb_etx_crc_bad (r := r) (by simp) (by simp [hr]) hcrc
  rw [processBytes_cons, e1, processBytes_cons, e2,
    processIdleSkip now [EOT, LF, LF] _ (by simp) (by decide)]

/-- Processing the first seven frame bytes `LF LF LF SOH dst src tid` from
`IDLE` with an accepted destination. -/
theorem processHeaderToTid (now : Nat) (s : BusState) (d src tid : Nat)
    (hstate : s.receiver_state = .IDLE)
    (hd : d = s.address ∨ d = BROADCAST_ADDRESS) :
    processBytes now s [LF, LF, LF, SOH, d, src, tid]
      = { s with
          receiver_state := .TRANSACTION_ID_RECEIVED
          receiving_message := some
            { timestamp := now, dst_address := d, src_address := src,
              transaction_id := tid, length := 0, crc := 0,
              is_first_nibble := true, incoming := 0,
              payload_buffer := [] } } := by
  have h3 : processBytes now s [LF, LF, LF] = s :=
    processIdleSkip now _ s hstate (by decide)
  have hsplit :
      ([LF, LF, LF, SOH, d, src, tid] : List Nat)
        = [LF, LF, LF] ++ [SOH, d, src, tid] := rfl
  have e1 : process_byte now s SOH
      = { s with
          receiver_state := .SOH_RECEIVED
          receiving_message := some (ReceivingMessage.init now) } :=
    pb_idle_soh hstate
  have e2 : process_byte now
      { s with
        receiver_state := .SOH_RECEIVED
        receiving_message := some (ReceivingMessage.init now) } d
      = { s with
          receiver_state := .DEST_ADDRESS_RECEIVED
          receiving_message := some
            { timestamp := now, dst_address := d, src_address := 0,
              transaction_id := 0, length := 0, crc := 0,
              is_first_nibble := true, incoming := 0,
              payload_buffer := [] } } :=
    pb_soh_accept (by simp) rfl (by simpa using hd)
  have e3 : process_byte now
      { s with
        receiver_state := .DEST_ADDRESS_RECEIVED
        receiving_message := some
          { timestamp := now, dst_address := d, src_address := 0,
            transaction_id := 0, length := 0, crc := 0,
            is_first_nibble := true, incoming := 0,
            payload_buffer := [] } } src
      = { s with
          receiver_state := .SRC_ADDRESS_RECEIVED
          receiving_message := some
            { timestamp := now, dst_address := d, src_address := src,
              transaction_id := 0, length := 0, crc := 0,
              is_first_nibble := true, incoming := 0,
              payload_buffer := [] } } :=
    pb_dest (by simp) rfl
  have e4 : process_byte now
      { s with
        receiver_state := .SRC_ADDRESS_RECEIVED
        receiving_message := some
          { timestamp := now, dst_address := d, src_address := src,
            transaction_id := 0, length := 0, crc := 0,
            is_first_nibble := true, incoming := 0,
            payload_buffer := [] } } tid
      = { s with
          receiver_state := .TRANSACTION_ID_RECEIVED
          receiving_message := some
            { timestamp := now, dst_address := d, src_address := src,
              transaction_id := tid, length := 0, crc := 0,
              is_first_nibble := true, incoming := 0,
              payload_buffer := [] } } :=
    pb_src (by simp) rfl
  rw [hsplit, processBytes_append, h3, processBytes_cons, e1,
    processBytes_cons, e2, processBytes_cons, e3, processBytes_cons, e4,
    processBytes_nil]

/-- A full frame parse whose checksum byte does not match the accumulated
checksum ends in a discard: the inbound queue is unchanged. -/
theorem parseThenCrcMismatch (now : Nat) (s : BusState)
    (d src tid crcb : Nat) (Q : List Nat)
    (hstate : s.receiver_state = .IDLE)
    (hd : d = s.address ∨ d = BROADCAST_ADDRESS)
    (hQ1 : 1 ≤ Q.length) (hQ2 : Q.length ≤ 255)
    (hQ : ∀ b ∈ Q, b < 256)
    (hcrc : crcb ≠ xorFold (d ^^^ src ^^^ Q.length) Q) :
    (processBytes now s
        ([LF, LF, LF, SOH, d, src, tid, Q.length, STX]
          ++ (encodeBody Q ++ ETX :: crcb :: EOT :: LF :: LF :: []))
      ).received_messages = s.received_messages := by
  rw [processBytes_append,
    processHeader now s d src tid Q.length hstate hd hQ1 hQ2]
  obtain ⟨r', heq, ht, hdst, hsrc', htid', hlen', hcrc', hfn', hpay'⟩ :=
    processBody now Q
      { s with
        receiver_state := .STX_RECEIVED
        receiving_message := some
          { timestamp := now, dst_address := d, src_address := src,
            transaction_id := tid, length := Q.length,
            crc := d ^^^ src ^^^ Q.length,
            is_first_nibble := true, incoming := 0, payload_buffer := [] } }
      { timestamp := now, dst_address := d, src_address := src,
        transaction_id := tid, length := Q.length,
        crc := d ^^^ src ^^^ Q.length,
        is_first_nibble := true, incoming := 0, payload_buffer := [] }
      hQ (by simp) rfl rfl
  rw [processBytes_append, heq]
  have hblen : r'.payload_buffer.length = r'.length := by
    rw [hpay', hlen']
    simp
  have hcrcr : r'.crc = xorFold (d ^^^ src ^^^ Q.length) Q := by rw [hcrc']
  refine (stxThenWrongCrc now _ r' crcb (by simp) rfl hblen ?_).trans (by simp)
  rw [hcrcr]
  exact hcrc

/-- In `STX_RECEIVED` with a short body, the `ETX`/length check discards and
the rest of the frame tail is inert. -/
theorem stxThenBadLenAtEtx (now : Nat) (s : BusState) (r : ReceivingMessage)
    (crcb : Nat)
    (hs : s.receiver_state = .STX_RECEIVED)
    (hr : s.receiving_message = some r)
    (hblen : r.payload_buffer.length ≠ r.length) :
    (processBytes now s (ETX :: crcb :: EOT :: LF :: LF :: [])
      ).received_messages = s.received_messages := by
  have e1 : process_byte now s ETX
      = { s with receiver_state := .IDLE, receiving_message := none } :=
    pb_stx_etx_bad hs hr hblen
  rw [processBytes_cons, e1]
  exact (processCrcTail now _ crcb (by simp)).trans (by simp)

/-- In `STX_RECEIVED` with an incomplete body, an invalid wire byte discards
the reception and the remaining non-`SOH` bytes plus checksum tail are
inert. -/
theorem stxPrefixJunkTail (now : Nat) (s : BusState) (r : ReceivingMessage)
    (c : Nat) (xs : List Nat) (crcb : Nat)
    (hs : s.receiver_state = .STX_RECEIVED)
    (hr : s.receiving_message = some r)
    (hv : is_valid_encoded_byte c = false)
    (hblen : r.payload_buffer.length ≠ r.length)
    (hxs : ∀ b ∈ xs, b ≠ SOH) :
    (processBytes now s (c :: (xs ++ crcb :: EOT :: LF :: LF :: []))
      ).received_messages = s.received_messages := by
  have e := pb_stx_reset now s r c hs hr hv hblen
  rw [processBytes_cons, e]
  exact (skipThenCrcTail now _ xs crcb (by simp) hxs).trans (by simp)

/-- As `stxPrefixJunkTail`, but with one pending high-nibble byte consumed
first. -/
theorem stxHalfThenJunkTail (now : Nat) (s : BusState) (r : ReceivingMessage)
    (pk c : Nat) (xs : List Nat) (crcb : Nat)
    (hs : s.receiver_state = .STX_RECEIVED)
    (hr : s.receiving_message = some r)
    (hfn : r.is_first_nibble = true) (hpk : pk < 256)
    (hv : is_valid_encoded_byte c = false)
    (hblen : r.payload_buffer.length ≠ r.length)
    (hxs : ∀ b ∈ xs, b ≠ SOH) :
    (processBytes now s
        (encHi pk :: c :: (xs ++ crcb :: EOT :: LF :: LF :: []))
      ).received_messages = s.received_messages := by
  have e1 : process_byte now s (encHi pk)
      = { s with
          receiving_message := some
            { r with incoming := encHi pk &&& 240,
                     is_first_nibble := false } } :=
    pb_stx_valid_first hs hr ((encByteFacts pk hpk).1) hfn
  rw [processBytes_cons, e1]
  exact (stxPrefixJunkTail now _
    { r with incoming := encHi pk &&& 240, is_first_nibble := false }
    c xs crcb (by simp [hs]) rfl hv (by simpa using hblen) hxs).trans (by simp)

/-! ## Claim C2 (amended): single-byte corruption of any checksummed byte -/

/-- C2 (amended): corrupting any single byte of a well-formed frame among
the destination byte (index 4), the source byte (index 5), the length byte
(index 7), the `STX` marker (index 8) or any encoded payload byte (indices
9 to 8 + 2·len) — every header byte except the transaction id — causes the
receiver, fed the corrupted frame from `IDLE`, to end in a discard: no
`ReceivedMessage` is ever appended.  The transaction-id byte (index 6) is
excluded: it is not covered by the checksum (see the counterexample). -/
theorem single_corruption_discard (now : Nat) (s : BusState)
    (src tid : Nat) (P : List Nat) (j c : Nat)
    (hstate : s.receiver_state = .IDLE)
    (hlen1 : 1 ≤ P.length) (hlen2 : P.length ≤ 255)
    (hP : ∀ b ∈ P, b < 256)
    (hsrc : src < 256) (htid : tid < 256)
    (haddr : is_valid_node_address s.address = true)
    (hj : j = 4 ∨ j = 5 ∨ j = 7 ∨ j = 8 ∨ (9 ≤ j ∧ j < 9 + 2 * P.length))
    (hc : c < 256)
    (hne : c ≠ (encodeFrame src s.address tid P).getD j 0) :
    (processBytes now s ((encodeFrame src s.address tid P).set j c)
      ).received_messages = s.received_messages := by
  have hframe : encodeFrame src s.address tid P
      = LF :: LF :: LF :: SOH :: s.address :: src :: tid :: P.length :: STX
        :: (encodeBody P
          ++ ETX :: frameCrc src s.address P :: EOT :: LF :: LF :: []) := by
    simp [encodeFrame]
  rw [hframe] at hne ⊢
  rcases hj with rfl | rfl | rfl | rfl | ⟨hj9, hjlt⟩
  · -- destination byte corrupted
    replace hne : c ≠ s.address := hne
    show (processBytes now s
        (LF :: LF :: LF :: SOH :: c :: src :: tid :: P.length :: STX
          :: (encodeBody P
            ++ ETX :: frameCrc src s.address P :: EOT :: LF :: LF :: []))
      ).received_messages = s.received_messages
    by_cases hcb : c = BROADCAST_ADDRESS
    · subst hcb
      show (processBytes now s
          ([LF, LF, LF, SOH, BROADCAST_ADDRESS, src, tid, P.length, STX]
            ++ (encodeBody P
              ++ ETX :: frameCrc src s.address P :: EOT :: LF :: LF :: []))
        ).received_messages = s.received_messages
      refine parseThenCrcMismatch now s BROADCAST_ADDRESS src tid _ P hstate
        (Or.inr rfl) hlen1 hlen2 hP ?_
      simp only [frameCrc]
      apply xorFold_init_cancel
      intro h
      have h2 := xor_right_cancel' h
      rw [Nat.xor_comm BROADCAST_ADDRESS src] at h2
      exact hne (xor_left_cancel' h2).symm
    · have hLF : process_byte now s LF = s := pb_idle_other hstate (by decide)
      have e2 : process_byte now
          { s with
            receiver_state := .SOH_RECEIVED
            receiving_message := some (ReceivingMessage.init now) } c
          = { s with receiver_state := .IDLE, receiving_message := none } :=
        pb_soh_reject (by simp) rfl hne hcb
      rw [processBytes_cons, hLF, processBytes_cons, hLF, processBytes_cons,
        hLF, processBytes_cons, pb_idle_soh hstate, processBytes_cons, e2]
      exact (afterDstReject now _ src tid (frameCrc src s.address P) P
        (by simp) hP hlen1).trans (by simp)
  · -- source byte corrupted
    replace hne : c ≠ src := hne
    show (processBytes now s
        ([LF, LF, LF, SOH, s.address, c, tid, P.length, STX]
          ++ (encodeBody P
            ++ ETX :: frameCrc src s.address P :: EOT :: LF :: LF :: []))
      ).received_messages = s.received_messages
    refine parseThenCrcMismatch now s s.address c tid _ P hstate
      (Or.inl rfl) hlen1 hlen2 hP ?_
    simp only [frameCrc]
    apply xorFold_init_cancel
    intro h
    have h2 := xor_right_cancel' h
    rw [Nat.xor_comm src s.address] at h2
    exact hne (xor_left_cancel' h2).symm
  · -- length byte corrupted
    replace hne : c ≠ P.length := hne
    by_cases hc0 : c = 0
    · subst hc0
      show (processBytes now s
          ([LF, LF, LF, SOH, s.address, src, tid]
            ++ (0 :: STX :: (encodeBody P
              ++ ETX :: frameCrc src s.address P :: EOT :: LF :: LF :: [])))
        ).received_messages = s.received_messages
      rw [processBytes_append,
        processHeaderToTid now s s.address src tid hstate (Or.inl rfl)]
      have e : process_byte now
          { s with
            receiver_state := .TRANSACTION_ID_RECEIVED
            receiving_message := some
              { timestamp := now, dst_address := s.address,
                src_address := src, transaction_id := tid, length := 0,
                crc := 0, is_first_nibble := true, incoming := 0,
                payload_buffer := [] } } 0
          = { s with receiver_state := .IDLE, receiving_message := none } :=
        pb_tid_bad (by simp) rfl (by simp)
      rw [processBytes_cons, e]
      have hsplit : STX :: (encodeBody P
          ++ ETX :: frameCrc src s.address P :: EOT :: LF :: LF :: [])
          = (STX :: encodeBody P ++ [ETX])
            ++ frameCrc src s.address P :: EOT :: LF :: LF :: [] := by
        simp
      rw [hsplit]
      refine (skipThenCrcTail now _ _ _ (by simp) ?_).trans (by simp)
      intro b hb'
      simp only [List.cons_append, List.mem_cons, List.mem_append,
        List.not_mem_nil, or_false] at hb'
      rcases hb' with rfl | h | rfl
      · decide
      · exact encodeBody_ne_soh hP b h
      · decide
    · have hc1 : 0 < c := Nat.pos_of_ne_zero hc0
      show (processBytes now s
          ([LF, LF, LF, SOH, s.address, src, tid, c, STX]
            ++ (encodeBody P
              ++ ETX :: frameCrc src s.address P :: EOT :: LF :: LF :: []))
        ).received_messages = s.received_messages
      rw [processBytes_append,
        processHeader now s s.address src tid c hstate (Or.inl rfl) hc1
          (by simp only [MAX_MESSAGE_LEN]; omega)]
      obtain ⟨r', heq, ht, hdst, hsrc', htid', hlen', hcrc', hfn', hpay'⟩ :=
        processBody now P
          { s with
            receiver_state := .STX_RECEIVED
            receiving_message := some
              { timestamp := now, dst_address := s.address,
                src_address := src, transaction_id := tid, length := c,
                crc := s.address ^^^ src ^^^ c, is_first_nibble := true,
                incoming := 0, payload_buffer := [] } }
          { timestamp := now, dst_address := s.address, src_address := src,
            transaction_id := tid, length := c,
            crc := s.address ^^^ src ^^^ c, is_first_nibble := true,
            incoming := 0, payload_buffer := [] }
          hP (by simp) rfl rfl
      rw [processBytes_append, heq]
      refine (stxThenBadLenAtEtx now _ r' _ (by simp) rfl ?_).trans (by simp)
      rw [hpay', hlen']
      simpa using Ne.symm hne
  · -- `STX` marker corrupted
    replace hne : c ≠ STX := hne
    show (processBytes now s
        ([LF, LF, LF, SOH, s.address, src, tid]
          ++ (P.length :: c :: (encodeBody P
            ++ ETX :: frameCrc src s.address P :: EOT :: LF :: LF :: [])))
      ).received_messages = s.received_messages
    rw [processBytes_append,
      processHeaderToTid now s s.address src tid hstate (Or.inl rfl)]
    have e1 : process_byte now
        { s with
          receiver_state := .TRANSACTION_ID_RECEIVED
          receiving_message := some
            { timestamp := now, dst_address := s.address, src_address := src,
              transaction_id := tid, length := 0, crc := 0,
              is_first_nibble := true, incoming := 0,
              payload_buffer := [] } } (P.length)
        = { s with
            receiver_state := .MESSAGE_LEN_RECEIVED
            receiving_message := some
              { timestamp := now, dst_address := s.address,
                src_address := src, transaction_id := tid,
                length := P.length, crc := 0, is_first_nibble := true,
                incoming := 0, payload_buffer := [] } } :=
      pb_tid_ok (by simp) rfl hlen1 hlen2
    have e2 : process_byte now
        { s with
          receiver_state := .MESSAGE_LEN_RECEIVED
          receiving_message := some
            { timestamp := now, dst_address := s.address, src_address := src,
              transaction_id := tid, length := P.length, crc := 0,
              is_first_nibble := true, incoming := 0,
              payload_buffer := [] } } c
        = { s with receiver_state := .IDLE, receiving_message := none } :=
      pb_len_other (by simp) rfl hne
    rw [processBytes_cons, e1, processBytes_cons, e2]
    have hsplit : encodeBody P
        ++ ETX :: frameCrc src s.address P :: EOT :: LF :: LF :: []
        = (encodeBody P ++ [ETX])
          ++ frameCrc src s.address P :: EOT :: LF :: LF :: [] := by
      simp
    rw [hsplit]
    refine (skipThenCrcTail now _ _ _ (by simp) ?_).trans (by simp)
    intro b hb'
    rcases List.mem_append.mp hb' with h | h
    · exact encodeBody_ne_soh hP b h
    · simp only [List.mem_cons, List.not_mem_nil, or_false] at h
      subst h; decide
  · -- an encoded payload byte is corrupted
    obtain ⟨m, rfl⟩ : ∃ m, j = m + 9 := ⟨j - 9, by omega⟩
    have hm : m < 2 * P.length := by omega
    have hm' : m < (encodeBody P).length := by rw [encodeBody_length]; omega
    replace hne : c ≠ (encodeBody P
        ++ ETX :: frameCrc src s.address P :: EOT :: LF :: LF :: []).getD m 0
      := hne
    rw [List.getD_append _ _ _ _ hm'] at hne
    show (processBytes now s
        (LF :: LF :: LF :: SOH :: s.address :: src :: tid :: P.length :: STX
          :: ((encodeBody P
            ++ ETX :: frameCrc src s.address P :: EOT :: LF :: LF :: []
            ).set m c))
      ).received_messages = s.received_messages
    rw [List.set_append, if_pos hm']
    obtain ⟨k, hk⟩ : ∃ k, m = 2 * k ∨ m = 2 * k + 1 := ⟨m / 2, by omega⟩
    have hkP : k < P.length := by rcases hk with rfl | rfl <;> omega
    have hPk : P.getD k 0 < 256 := hP _ (getD_mem_of_lt P k hkP)
    rcases hk with rfl | rfl
    · -- high-nibble position
      rw [encodeBody_getD_even P k hkP] at hne
      cases hvc : is_valid_encoded_byte c
      · -- invalid replacement: truncated body, discard at that byte
        rw [List.set_eq_take_cons_drop c hm', encodeBody_take_even]
        have hassoc : (encodeBody (P.take k)
              ++ c :: (encodeBody P).drop (2 * k + 1))
            ++ ETX :: frameCrc src s.address P :: EOT :: LF :: LF :: []
            = encodeBody (P.take k)
              ++ (c :: (((encodeBody P).drop (2 * k + 1) ++ [ETX])
                ++ frameCrc src s.address P :: EOT :: LF :: LF :: [])) := by
          simp
        rw [hassoc]
        show (processBytes now s
            ([LF, LF, LF, SOH, s.address, src, tid, P.length, STX]
              ++ (encodeBody (P.take k)
                ++ (c :: (((encodeBody P).drop (2 * k + 1) ++ [ETX])
                  ++ frameCrc src s.address P :: EOT :: LF :: LF :: []))))
          ).received_messages = s.received_messages
        rw [processBytes_append,
          processHeader now s s.address src tid P.length hstate (Or.inl rfl)
            hlen1 hlen2, processBytes_append]
        obtain ⟨r', heq, ht, hdst, hsrc', htid', hlen', hcrc', hfn', hpay'⟩ :=
          processBody now (P.take k)
            { s with
              receiver_state := .STX_RECEIVED
              receiving_message := some
                { timestamp := now, dst_address := s.address,
                  src_address := src, transaction_id := tid,
                  length := P.length,
                  crc := s.address ^^^ src ^^^ P.length,
                  is_first_nibble := true, incoming := 0,
                  payload_buffer := [] } }
            { timestamp := now, dst_address := s.address,
              src_address := src, transaction_id := tid, length := P.length,
              crc := s.address ^^^ src ^^^ P.length,
              is_first_nibble := true, incoming := 0, payload_buffer := [] }
            (fun b hb => hP b (List.mem_of_mem_take hb)) (by simp) rfl rfl
        rw [heq]
        refine (stxPrefixJunkTail now _ r' c _ _ (by simp) rfl hvc ?_ ?_
          ).trans (by simp)
        · rw [hpay', hlen']
          simp only [List.nil_append, List.length_take]
          intro hcontra
          simp at hcontra
          omega
        · intro b hb'
          rcases List.mem_append.mp hb' with h | h
          · exact encodeBody_ne_soh hP b (List.mem_of_mem_drop h)
          · simp only [List.mem_cons, List.not_mem_nil, or_false] at h
            subst h; decide
      · -- valid replacement: reparses as a one-byte-different payload,
        -- rejected at the checksum byte
        rw [encodeBody_set_even P k c hkP hvc hc hP]
        have hlenset : P.length
            = (P.set k ((c &&& 240) ||| (P.getD k 0 &&& 15))).length :=
          (List.length_set P k _).symm
        rw [hlenset]
        show (processBytes now s
            ([LF, LF, LF, SOH, s.address, src, tid,
              (P.set k ((c &&& 240) ||| (P.getD k 0 &&& 15))).length, STX]
              ++ (encodeBody (P.set k ((c &&& 240) ||| (P.getD k 0 &&& 15)))
                ++ ETX :: frameCrc src s.address P :: EOT :: LF :: LF :: []))
          ).received_messages = s.received_messages
        refine parseThenCrcMismatch now s s.address src tid _ _ hstate
          (Or.inl rfl) (by simpa using hlen1) (by simpa using hlen2)
          (by
            intro b hb
            rcases List.mem_or_eq_of_mem_set hb with h | rfl
            · exact hP b h
            · exact (corruptHi hc hPk hvc).2.2) ?_
        simp only [frameCrc, List.length_set]
        rw [Nat.xor_comm s.address src, xorFold_eq_xor,
          xorFold_eq_xor (src ^^^ s.address ^^^ P.length),
          xorFold_zero_set P k _ hkP]
        intro h
        have h2 := xor_left_cancel' h
        rw [Nat.xor_assoc] at h2
        have h4 : xorFold 0 P
            ^^^ (P.getD k 0 ^^^ ((c &&& 240) ||| (P.getD k 0 &&& 15)))
            = xorFold 0 P ^^^ 0 := by
          rw [Nat.xor_zero]
          exact h2.symm
        have h5 := Nat.xor_eq_zero.mp (xor_left_cancel' h4)
        apply hne
        rw [h5]
        exact ((corruptHi hc hPk hvc).1).symm
    · -- low-nibble position
      rw [encodeBody_getD_odd P k hkP] at hne
      cases hvc : is_valid_encoded_byte c
      · -- invalid replacement after a pending high nibble
        rw [List.set_eq_take_cons_drop c hm', encodeBody_take_odd P k hkP]
        have hassoc : ((encodeBody (P.take k) ++ [encHi (P.getD k 0)])
              ++ c :: (encodeBody P).drop (2 * k + 1 + 1))
            ++ ETX :: frameCrc src s.address P :: EOT :: LF :: LF :: []
            = encodeBody (P.take k)
              ++ (encHi (P.getD k 0)
                :: c :: (((encodeBody P).drop (2 * k + 1 + 1) ++ [ETX])
                  ++ frameCrc src s.address P :: EOT :: LF :: LF :: [])) := by
          simp
        rw [hassoc]
        show (processBytes now s
            ([LF, LF, LF, SOH, s.address, src, tid, P.length, STX]
              ++ (encodeBody (P.take k)
                ++ (encHi (P.getD k 0)
                  :: c :: (((encodeBody P).drop (2 * k + 1 + 1) ++ [ETX])
                    ++ frameCrc src s.address P :: EOT :: LF :: LF :: []))))
          ).received_messages = s.received_messages
        rw [processBytes_append,
          processHeader now s s.address src tid P.length hstate (Or.inl rfl)
            hlen1 hlen2, processBytes_append]
        obtain ⟨r', heq, ht, hdst, hsrc', htid', hlen', hcrc', hfn', hpay'⟩ :=
          processBody now (P.take k)
            { s with
              receiver_state := .STX_RECEIVED
              receiving_message := some
                { timestamp := now, dst_address := s.address,
                  src_address := src, transaction_id := tid,
                  length := P.length,
                  crc := s.address ^^^ src ^^^ P.length,
                  is_first_nibble := true, incoming := 0,
                  payload_buffer := [] } }
            { timestamp := now, dst_address := s.address,
              src_address := src, transaction_id := tid, length := P.length,
              crc := s.address ^^^ src ^^^ P.length,
              is_first_nibble := true, incoming := 0, payload_buffer := [] }
            (fun b hb => hP b (List.mem_of_mem_take hb)) (by simp) rfl rfl
        rw [heq]
        refine (stxHalfThenJunkTail now _ r' (P.getD k 0) c _ _ (by simp)
          rfl hfn' hPk hvc ?_ ?_).trans (by simp)
        · rw [hpay', hlen']
          simp only [List.nil_append, List.length_take]
          intro hcontra
          simp at hcontra
          omega
        · intro b hb'
          rcases List.mem_append.mp hb' with h | h
          · exact encodeBody_ne_soh hP b (List.mem_of_mem_drop h)
          · simp only [List.mem_cons, List.not_mem_nil, or_false] at h
            subst h; decide
      · -- valid replacement: reparses with a different low nibble,
        -- rejected at the checksum byte
        rw [encodeBody_set_odd P k c hkP hvc hc hP]
        have hlenset : P.length
            = (P.set k ((P.getD k 0 &&& 240) ||| (c &&& 15))).length :=
          (List.length_set P k _).symm
        rw [hlenset]
        show (processBytes now s
            ([LF, LF, LF, SOH, s.address, src, tid,
              (P.set k ((P.getD k 0 &&& 240) ||| (c &&& 15))).length, STX]
              ++ (encodeBody (P.set k ((P.getD k 0 &&& 240) ||| (c &&& 15)))
                ++ ETX :: frameCrc src s.address P :: EOT :: LF :: LF :: []))
          ).received_messages = s.received_messages
        refine parseThenCrcMismatch now s s.address src tid _ _ hstate
          (Or.inl rfl) (by simpa using hlen1) (by simpa using hlen2)
          (by
            intro b hb
            rcases List.mem_or_eq_of_mem_set hb with h | rfl
            · exact hP b h
            · exact (corruptLo hc hPk hvc).2.2) ?_
        simp only [frameCrc, List.length_set]
        rw [Nat.xor_comm s.address src, xorFold_eq_xor,
          xorFold_eq_xor (src ^^^ s.address ^^^ P.length),
          xorFold_zero_set P k _ hkP]
        intro h
        have h2 := xor_left_cancel' h
        rw [Nat.xor_assoc] at h2
        have h4 : xorFold 0 P
            ^^^ (P.getD k 0 ^^^ ((P.getD k 0 &&& 240) ||| (c &&& 15)))
            = xorFold 0 P ^^^ 0 := by
          rw [Nat.xor_zero]
          exact h2.symm
        have h5 := Nat.xor_eq_zero.mp (xor_left_cancel' h4)
        apply hne
        rw [h5]
        exact ((corruptLo hc hPk hvc).1).symm

/-- C2 counterexample: the transaction-id header byte (frame index 6, value
5 in this frame) is not folded into the checksum
(`crc = dst ^ src ^ len ^ payload`), so its single-byte corruption `5 ↦ 6`
is accepted as a success: the receiver appends a `ReceivedMessage` carrying
the corrupted transaction id instead of ending in a discard. -/
theorem checksum_misses_transaction_id :
    (encodeFrame 0 2 5 [65]).getD 6 0 = 5
    ∧ (processBytes 0 (initState 2 20 0) ((encodeFrame 0 2 5 [65]).set 6 6)
        ).received_messages
      = [{ src_address := 0, dest_address := 2, transaction_id := 6,
           length := 1, payload := [65] }] := by
  decide

/-- Witness for the amended C2: corrupting the destination byte of a
concrete frame to a third address leaves the inbound queue empty. -/
theorem single_corruption_discard_witness :
    (processBytes 0 (initState 2 20 0) ((encodeFrame 0 2 5 [65]).set 4 7)
      ).received_messages = [] :=
  single_corruption_discard 0 (initState 2 20 0) 0 5 [65] 4 7 rfl
    (by decide) (by decide) (by decide) (by decide) (by decide) (by decide)
    (Or.inl rfl) (by decide) (by decide)

end Simple485
